import Mathlib

/-!
# StreamPunk thread-affinity foreign functions

A shallow embedding of the foreign functions of StreamPunk (`SetAffinityLinux.c`,
`GetAffinityLinux.c`, `ResetAffinityLinux.c`, `PinThreadLinux.c`, `UnpinThreadLinux.c` and
the Windows `SetAffinityWindows.c`) together with the properties of the affinity-mask
codec and of the apply / read-back protocol built on it.

Conventions of the embedding:
* `uint64_t` values are `Nat`, reduced `% 2 ^ 64` wherever the C arithmetic can wrap;
* a native `cpu_set_t` buffer is the list of its bytes (little-endian target:
  CPU `c` is bit `c % 8` of byte `c / 8`);
* reading or writing outside a buffer, or through `NULL`, is a `Fault`;
* the kernel is an explicit state (`affinity`) plus an immutable platform `Env`.
-/

namespace StreamPunk

/-! ## Constants -/

/-- The constant `INT_MAX` of `<limits.h>` on the targets of the library (32-bit `int`). -/
def INT_MAX : Nat := 2147483647

/-- The constant `INT32_MAX` of `<stdint.h>`. -/
def INT32_MAX : Int := 2147483647

/-! ## The glibc CPU-set macros -/

/-- Modelled from the spec: the macro `CPU_ALLOC_SIZE` of `<sched.h>` is not part of the
sources; the native set is "a dynamically sized kernel bitmask sized to the reported CPU
count", made of 64-bit units: `((count + 63) / 64) * 8` bytes, in `size_t` arithmetic. -/
def CPU_ALLOC_SIZE (count : Nat) : Nat :=
  ((count + 63) % 2 ^ 64 / 64) * 8

/-- Modelled from the spec: the macro `CPU_ZERO_S` of `<sched.h>` is not part of the sources;
it clears every byte of a set of `setsize` bytes. -/
def CPU_ZERO_S (setsize : Nat) : List Nat :=
  List.replicate setsize 0

/-- Modelled from the spec: the macro `CPU_SET_S` of `<sched.h>` is not part of the sources;
"the native representation is stored byte-major (byte 0 holds CPUs 0–7, bit 0 of that byte
is CPU 0)". A CPU number outside the set is ignored, as glibc does. -/
def CPU_SET_S (cpu setsize : Nat) (cpuset : List Nat) : List Nat :=
  if cpu / 8 < setsize then
    cpuset.set (cpu / 8) (cpuset.getD (cpu / 8) 0 ||| (1 <<< (cpu % 8)))
  else cpuset

/-- Modelled from the spec: the macro `CPU_ISSET_S` of `<sched.h>` is not part of the
sources; CPU `cpu` is in the set when bit `cpu % 8` of byte `cpu / 8` is one. -/
def CPU_ISSET_S (cpu setsize : Nat) (cpuset : List Nat) : Bool :=
  decide (cpu / 8 < setsize) && (cpuset.getD (cpu / 8) 0).testBit (cpu % 8)

/-! ## Lower: the loop of `SetAffinityUnsafe` (SetAffinityLinux.c, lines 59-79) -/

/-- Ways the lowering loop ends. -/
inductive Lowered where
  | done (cpuset : List Nat)
  | tooLarge
  | outOfBounds
deriving DecidableEq, Repr

/-- The inner loop `for (j = 0; j < 64; j++)` for one word `currLong`; `js` are the values
of `j` still to visit, `i` is the value of the outer loop variable. `none` stands for the
early `return RealBitPositionTooLarge`. -/
def lowerBits (currLong maskLength i size : Nat) : List Nat → List Nat → Option (List Nat)
  | [], cpuset => some cpuset
  | j :: js, cpuset =>
    let extractionMask := (1 <<< j) % 2 ^ 64
    let extractedBit := ((extractionMask &&& currLong) >>> j) % 256
    if extractedBit ≠ 0 then
      let realBitPosition := (j + ((maskLength - i) * 64) % 2 ^ 64) % 2 ^ 64
      if realBitPosition > INT_MAX then none
      else lowerBits currLong maskLength i size js (CPU_SET_S realBitPosition size cpuset)
    else lowerBits currLong maskLength i size js cpuset

/-- The outer loop `for (i = maskLength; i > 0; i--)`; the argument counts down and the
C variable `i` is `i + 1` in the successor case, so the word read is
`suppliedAffinityMask[i]`. -/
def lowerWords (mask : List Nat) (maskLength size : Nat) : Nat → List Nat → Lowered
  | 0, cpuset => .done cpuset
  | i + 1, cpuset =>
    match mask[i]? with
    | none => .outOfBounds
    | some currLong =>
      match lowerBits currLong maskLength (i + 1) size (List.range 64) cpuset with
      | none => .tooLarge
      | some cpuset' => lowerWords mask maskLength size i cpuset'

/-- Lines 45-79 of `SetAffinityUnsafe`: size the native set for `maskLength * 64` CPUs,
clear it and run the lowering loop. -/
def lower (mask : List Nat) (maskLength : Nat) : Lowered :=
  let suppliedNumOfCpus := (maskLength * 64) % 2 ^ 64
  let size := CPU_ALLOC_SIZE suppliedNumOfCpus
  lowerWords mask maskLength size maskLength (CPU_ZERO_S size)

/-! ## Raise: the read-back loop of SetAffinityLinux.c (lines 113-139)

The copies of GetAffinityLinux.c and ResetAffinityLinux.c follow in their own sections. -/

/-- Undefined behaviour of the C code made explicit. -/
inductive Fault where
  | nullDeref
  | readOutOfBounds
  | writeOutOfBounds
deriving DecidableEq, Repr

/-- Result of running a foreign function: it returns, or it runs into a `Fault`. -/
inductive Run (α : Type) where
  | returned (r : α)
  | fault (f : Fault)
deriving DecidableEq, Repr

/-- The inner loop `for (j = 0; j < 8; j++)` for the byte `currByte` at byte index `i`:
each extracted bit is shifted into `out[numOfLongs - (i + 8) / 8]` from the right.
The index is computed in `uint64_t`, so the subtraction wraps. -/
def raiseBits (currByte numOfLongs i : Nat) : List Nat → List Nat → Run (List Nat)
  | [], out => .returned out
  | j :: js, out =>
    let extractionMask := (1 <<< j) % 256
    let extractedBit := ((extractionMask &&& currByte) >>> j) % 256
    let currIndex := (numOfLongs + 2 ^ 64 - ((i + 8) % 2 ^ 64) / 8) % 2 ^ 64
    match out[currIndex]? with
    | none => .fault .writeOutOfBounds
    | some w =>
      raiseBits currByte numOfLongs i js (out.set currIndex (((w <<< 1) % 2 ^ 64) ||| extractedBit))

/-- The outer loop `for (i = 0; i < numOfBytes; i++)` over the bytes of the native set;
`is` are the byte indices still to visit. -/
def raiseBytes (realcpuset : List Nat) (numOfLongs : Nat) : List Nat → List Nat → Run (List Nat)
  | [], out => .returned out
  | i :: is, out =>
    match realcpuset[i]? with
    | none => .fault .readOutOfBounds
    | some currByte =>
      match raiseBits currByte numOfLongs i (List.range 8) out with
      | .fault f => .fault f
      | .returned out' => raiseBytes realcpuset numOfLongs is out'

/-- The read-back loop on a zero-initialised (`calloc`) output of `numOfLongs` words. -/
def raise (realcpuset : List Nat) (numOfLongs numOfBytes : Nat) : Run (List Nat) :=
  raiseBytes realcpuset numOfLongs (List.range numOfBytes) (List.replicate numOfLongs 0)

/-- The word count `(realNumOfCpus + UINT64_C(64)) / UINT64_C(64)` of SetAffinityLinux.c
(line 113), in `uint64_t` arithmetic. -/
def numOfLongs (realNumOfCpus : Nat) : Nat :=
  (realNumOfCpus + 64) % 2 ^ 64 / 64

/-- The byte count `(numOfLongs * 64) / 8` of SetAffinityLinux.c (line 114). -/
def numOfBytes (numOfLongs : Nat) : Nat :=
  (numOfLongs * 64) % 2 ^ 64 / 8

/-- The index `numOfLongs - ((i + UINT64_C(8)) / UINT64_C(8))` that the read-back loops
write to (SetAffinityLinux.c line 135, GetAffinityLinux.c line 75, ResetAffinityLinux.c
line 99), in `uint64_t` arithmetic: the division truncates and the subtraction wraps. -/
def currIndexOfComparisonMask (numOfLongs i : Nat) : Nat :=
  (numOfLongs + 2 ^ 64 - ((i + 8) % 2 ^ 64) / 8) % 2 ^ 64

/-- The word index in the words of the specification,
`wordIndex = numberOfWords - ceil((byteIndex + 1) / 8)`, over the integers, with the
quotient taken in the rationals. -/
def specWordIndex (numberOfWords byteIndex : Nat) : Int :=
  (numberOfWords : Int) - ⌈((byteIndex : ℚ) + 1) / 8⌉

/-! ## The platform: kernel, allocator, thread id -/

/-- What a call did to the outside world, in order. -/
inductive Event where
  | alloc (bytes : Nat) (ok : Bool)
  | sched_setaffinity (cpuset : List Nat) (ok : Bool)
  | sched_getaffinity (size : Nat) (ok : Bool)
deriving DecidableEq, Repr

/-- The immutable part of the platform. The live affinity of the calling thread is a byte
list in the native layout and is passed along explicitly.
* `gettid`: the id of the calling thread;
* `nprocs`: the value of `sysconf(_SC_NPROCESSORS_CONF)`;
* `allocOk k`: whether the `k`-th allocation of a call succeeds;
* `sched_setaffinity affinity cpuset`: `none` when the kernel rejects the set, otherwise
  the affinity it stores;
* `sched_getaffinity affinity size`: whether the query into a buffer of `size` bytes
  succeeds. -/
structure Env where
  gettid : Int
  nprocs : Int
  allocOk : Nat → Bool
  sched_setaffinity : List Nat → List Nat → Option (List Nat)
  sched_getaffinity : List Nat → Nat → Bool

/-- The buffer of `realSize` bytes after a successful `sched_getaffinity`: the bytes of the
live affinity, zero beyond it. -/
def readBack (affinity : List Nat) (realSize : Nat) : List Nat :=
  (List.range realSize).map (fun i => affinity.getD i 0 % 256)

/-- State at return of `SetAffinityUnsafe`, `GetAffinityUnsafe`, `ResetAffinityUnsafe`:
the return code, the three output slots (`none` is a `NULL` pointer to the slot; the
applied-mask slot holds `none` for `NULL`), the live affinity and the trace of the call. -/
structure Ret where
  code : Int
  tid : Option Int
  appliedAffinityMask : Option (Option (List Nat))
  appliedMaskLength : Option Nat
  affinity : List Nat
  trace : List Event
deriving DecidableEq, Repr

/-- The return code of a run, when it returned. -/
def Run.code? : Run Ret → Option Int
  | .returned r => some r.code
  | .fault _ => none

/-- The words behind the applied-mask slot of a run, when it returned a non-`NULL` mask. -/
def Run.applied? : Run Ret → Option (List Nat)
  | .returned r => r.appliedAffinityMask.join
  | .fault _ => none

/-- The applied-mask length slot of a run, when it returned. -/
def Run.length? : Run Ret → Option Nat
  | .returned r => r.appliedMaskLength
  | .fault _ => none

/-! ## SetAffinityLinux.c -/

namespace SetAffinityLinux

/-! The values of `enum OutcomeCode` (SetAffinityLinux.c, lines 14-24). -/

def InvalidArgInitialization : Int := -1
def FailedToAllocCpuSet : Int := -2
def RealBitPositionTooLarge : Int := -3
def FailedToSetAffinity : Int := -4
def FailedToGetRealNumCpus : Int := -5
def FailedToAllocRealCpuSet : Int := -6
def FailedToGetAffinity : Int := -7
def FailedToAllocComparisonMask : Int := -8
def Success : Int := 0

/-- Lines 87-150 of `SetAffinityUnsafe`: the read-back after a successful apply.
`affinity` is the live affinity after the apply, `trace` what the call did so far. -/
def readBackPhase (env : Env) (affinity : List Nat) (tid : Int) (trace : List Event) : Run Ret :=
  let realNumOfCpus := env.nprocs
  if realNumOfCpus < 0 then
    .returned ⟨FailedToGetRealNumCpus, some tid, some none, some 0, affinity, trace⟩
  else
    let realSize := CPU_ALLOC_SIZE realNumOfCpus.toNat
    if env.allocOk 1 = false then
      .returned ⟨FailedToAllocRealCpuSet, some tid, some none, some 0, affinity,
        trace ++ [.alloc realSize false]⟩
    else if env.sched_getaffinity affinity realSize = false then
      .returned ⟨FailedToGetAffinity, some tid, some none, some 0, affinity,
        trace ++ [.alloc realSize true, .sched_getaffinity realSize false]⟩
    else
      let realcpuset := readBack affinity realSize
      let numOfLongs := numOfLongs realNumOfCpus.toNat
      let numOfBytes := numOfBytes numOfLongs
      if env.allocOk 2 = false then
        .returned ⟨FailedToAllocComparisonMask, some tid, some none, some 0, affinity,
          trace ++ [.alloc realSize true, .sched_getaffinity realSize true,
            .alloc (numOfLongs * 8) false]⟩
      else
        match raise realcpuset numOfLongs numOfBytes with
        | .fault f => .fault f
        | .returned comparisonMask =>
          .returned ⟨Success, some tid, some (some comparisonMask), some numOfLongs, affinity,
            trace ++ [.alloc realSize true, .sched_getaffinity realSize true,
              .alloc (numOfLongs * 8) true]⟩

/-- The function `SetAffinityUnsafe` of SetAffinityLinux.c. A pointer argument is `none` when `NULL`;
`tid`, `appliedAffinityMask`, `appliedMaskLength` hold the prior contents of the slots.
The result of `CPU_ALLOC` is not checked by the code, so a failed allocation is a write
through `NULL` in `CPU_ZERO_S`. -/
def SetAffinityUnsafe (env : Env) (affinity : List Nat)
    (suppliedAffinityMask : Option (List Nat)) (maskLength : Nat) (tid : Option Int)
    (appliedAffinityMask : Option (Option (List Nat))) (appliedMaskLength : Option Nat) :
    Run Ret :=
  match suppliedAffinityMask, tid, appliedAffinityMask, appliedMaskLength with
  | some mask, some _, some _, some _ =>
    if maskLength = 0 then
      .returned ⟨InvalidArgInitialization, tid, appliedAffinityMask, appliedMaskLength,
        affinity, []⟩
    else
      let tid' := env.gettid
      let suppliedNumOfCpus := (maskLength * 64) % 2 ^ 64
      let size := CPU_ALLOC_SIZE suppliedNumOfCpus
      if env.allocOk 0 = false then .fault .nullDeref
      else
        match lowerWords mask maskLength size maskLength (CPU_ZERO_S size) with
        | .outOfBounds => .fault .readOutOfBounds
        | .tooLarge =>
          .returned ⟨RealBitPositionTooLarge, some tid', some none, some 0, affinity,
            [.alloc size true]⟩
        | .done cpuset =>
          match env.sched_setaffinity affinity cpuset with
          | none =>
            .returned ⟨FailedToSetAffinity, some tid', some none, some 0, affinity,
              [.alloc size true, .sched_setaffinity cpuset false]⟩
          | some affinity' =>
            readBackPhase env affinity' tid' [.alloc size true, .sched_setaffinity cpuset true]
  | _, _, _, _ =>
    .returned ⟨InvalidArgInitialization, tid, appliedAffinityMask, appliedMaskLength,
      affinity, []⟩

end SetAffinityLinux

/-! ## GetAffinityLinux.c -/

namespace GetAffinityLinux

/-! The values of `enum OutcomeCode` (GetAffinityLinux.c, lines 8-16). -/

def InvalidArgInitialization : Int := -1
def FailedToGetRealNumCpus : Int := -2
def TooManyCpus : Int := -3
def FailedToAllocOutputCpuSet : Int := -4
def FailedToGetAffinity : Int := -5
def FailedToAllocOutputMask : Int := -6
def Success : Int := 0

/-- The word count `(realNumOfCpus + INT64_C(64)) / INT64_C(64)` of GetAffinityLinux.c (line 50),
in `int64_t` arithmetic with truncating division. -/
def numOfLongs (realNumOfCpus : Int) : Int :=
  (realNumOfCpus + 64).tdiv 64

/-- The cast `(uint64_t)numOfLongs` of GetAffinityLinux.c. -/
def toU64 (numOfLongs : Int) : Nat :=
  (numOfLongs % 2 ^ 64).toNat

/-- The byte count `(((uint64_t)numOfLongs) * 64) / 8` of GetAffinityLinux.c (line 54). -/
def numOfBytes (numOfLongs : Int) : Nat :=
  (toU64 numOfLongs * 64) % 2 ^ 64 / 8

/-- The inner loop `for (j = 0; j < 8; j++)` of GetAffinityLinux.c (lines 69-78) for the
byte `currByte` at byte index `i`. -/
def raiseBits (currByte : Nat) (numOfLongs : Int) (i : Nat) :
    List Nat → List Nat → Run (List Nat)
  | [], out => .returned out
  | j :: js, out =>
    let extractionMask := (1 <<< j) % 256
    let extractedBit := ((extractionMask &&& currByte) >>> j) % 256
    let currIndex := (toU64 numOfLongs + 2 ^ 64 - ((i + 8) % 2 ^ 64) / 8) % 2 ^ 64
    match out[currIndex]? with
    | none => .fault .writeOutOfBounds
    | some w =>
      raiseBits currByte numOfLongs i js (out.set currIndex (((w <<< 1) % 2 ^ 64) ||| extractedBit))

/-- The outer loop `for (i = 0; i < numOfBytes; i++)` of GetAffinityLinux.c. -/
def raiseBytes (realcpuset : List Nat) (numOfLongs : Int) :
    List Nat → List Nat → Run (List Nat)
  | [], out => .returned out
  | i :: is, out =>
    match realcpuset[i]? with
    | none => .fault .readOutOfBounds
    | some currByte =>
      match raiseBits currByte numOfLongs i (List.range 8) out with
      | .fault f => .fault f
      | .returned out' => raiseBytes realcpuset numOfLongs is out'

/-- The read-back loop of GetAffinityLinux.c on the `calloc`ed output of `numOfLongs` words. -/
def raise (realcpuset : List Nat) (numOfLongs : Int) (numOfBytes : Nat) : Run (List Nat) :=
  raiseBytes realcpuset numOfLongs (List.range numOfBytes)
    (List.replicate (toU64 numOfLongs) 0)

/-- The function `GetAffinityUnsafe` of GetAffinityLinux.c. -/
def GetAffinityUnsafe (env : Env) (affinity : List Nat) (tid : Option Int)
    (appliedAffinityMask : Option (Option (List Nat))) (appliedMaskLength : Option Nat) :
    Run Ret :=
  match tid, appliedAffinityMask, appliedMaskLength with
  | some _, some _, some _ =>
    let realNumOfCpus := env.nprocs
    if realNumOfCpus ≤ 0 then
      .returned ⟨FailedToGetRealNumCpus, some 0, some none, some 0, affinity, []⟩
    else if realNumOfCpus > INT32_MAX then
      .returned ⟨TooManyCpus, some 0, some none, some 0, affinity, []⟩
    else
      let realSize := CPU_ALLOC_SIZE realNumOfCpus.toNat
      if env.allocOk 0 = false then
        .returned ⟨FailedToAllocOutputCpuSet, some 0, some none, some 0, affinity,
          [.alloc realSize false]⟩
      else if env.sched_getaffinity affinity realSize = false then
        .returned ⟨FailedToGetAffinity, some 0, some none, some 0, affinity,
          [.alloc realSize true, .sched_getaffinity realSize false]⟩
      else
        let realcpuset := readBack affinity realSize
        let numOfLongs := numOfLongs realNumOfCpus
        let numOfBytes := numOfBytes numOfLongs
        if env.allocOk 1 = false then
          .returned ⟨FailedToAllocOutputMask, some 0, some none, some 0, affinity,
            [.alloc realSize true, .sched_getaffinity realSize true,
              .alloc (toU64 numOfLongs * 8) false]⟩
        else
          match raise realcpuset numOfLongs numOfBytes with
          | .fault f => .fault f
          | .returned outputMask =>
            .returned ⟨Success, some env.gettid, some (some outputMask),
              some (toU64 numOfLongs),
              affinity,
              [.alloc realSize true, .sched_getaffinity realSize true,
                .alloc (toU64 numOfLongs * 8) true]⟩
  | _, _, _ =>
    .returned ⟨InvalidArgInitialization, tid, appliedAffinityMask, appliedMaskLength,
      affinity, []⟩

end GetAffinityLinux

/-! ## ResetAffinityLinux.c -/

namespace ResetAffinityLinux

/-! The values of `enum OutcomeCode` (ResetAffinityLinux.c, lines 8-18). -/

def InvalidArgInitialization : Int := -1
def FailedToGetRealNumCpus : Int := -2
def TooManyCpus : Int := -3
def FailedToAllocCpuSet : Int := -4
def FailedToSetAffinity : Int := -5
def FailedToAllocComparisonCpuSet : Int := -6
def FailedToGetAffinity : Int := -7
def FailedToAllocComparisonMask : Int := -8
def Success : Int := 0

/-- The word count `(realNumOfCpus + INT64_C(64)) / INT64_C(64)` of ResetAffinityLinux.c (line 74),
in `int64_t` arithmetic with truncating division. -/
def numOfLongs (realNumOfCpus : Int) : Int :=
  (realNumOfCpus + 64).tdiv 64

/-- The cast `(uint64_t)numOfLongs` of ResetAffinityLinux.c. -/
def toU64 (numOfLongs : Int) : Nat :=
  (numOfLongs % 2 ^ 64).toNat

/-- The byte count `(((uint64_t)numOfLongs) * 64) / 8` of ResetAffinityLinux.c (line 78). -/
def numOfBytes (numOfLongs : Int) : Nat :=
  (toU64 numOfLongs * 64) % 2 ^ 64 / 8

/-- The inner loop `for (j = 0; j < 8; j++)` of ResetAffinityLinux.c (lines 93-102) for the
byte `currByte` at byte index `i`. -/
def raiseBits (currByte : Nat) (numOfLongs : Int) (i : Nat) :
    List Nat → List Nat → Run (List Nat)
  | [], out => .returned out
  | j :: js, out =>
    let extractionMask := (1 <<< j) % 256
    let extractedBit := ((extractionMask &&& currByte) >>> j) % 256
    let currIndex := (toU64 numOfLongs + 2 ^ 64 - ((i + 8) % 2 ^ 64) / 8) % 2 ^ 64
    match out[currIndex]? with
    | none => .fault .writeOutOfBounds
    | some w =>
      raiseBits currByte numOfLongs i js (out.set currIndex (((w <<< 1) % 2 ^ 64) ||| extractedBit))

/-- The outer loop `for (i = 0; i < numOfBytes; i++)` of ResetAffinityLinux.c. -/
def raiseBytes (realcpuset : List Nat) (numOfLongs : Int) :
    List Nat → List Nat → Run (List Nat)
  | [], out => .returned out
  | i :: is, out =>
    match realcpuset[i]? with
    | none => .fault .readOutOfBounds
    | some currByte =>
      match raiseBits currByte numOfLongs i (List.range 8) out with
      | .fault f => .fault f
      | .returned out' => raiseBytes realcpuset numOfLongs is out'

/-- The read-back loop of ResetAffinityLinux.c on the `calloc`ed output of `numOfLongs` words. -/
def raise (realcpuset : List Nat) (numOfLongs : Int) (numOfBytes : Nat) : Run (List Nat) :=
  raiseBytes realcpuset numOfLongs (List.range numOfBytes)
    (List.replicate (toU64 numOfLongs) 0)

/-- Line 48: `for (i = 0; i < numOfCpus; i++) CPU_SET_S(i, size, cpuset)` on a cleared set. -/
def allCpus (numOfCpus size : Nat) : List Nat :=
  (List.range numOfCpus).foldl (fun cpuset i => CPU_SET_S i size cpuset) (CPU_ZERO_S size)

/-- Lines 55-111 of `ResetAffinityUnsafe`: the read-back after a successful apply. -/
def readBackPhase (env : Env) (affinity : List Nat) (trace : List Event) : Run Ret :=
  let realNumOfCpus := env.nprocs
  if realNumOfCpus ≤ 0 then
    .returned ⟨FailedToGetRealNumCpus, some 0, some none, some 0, affinity, trace⟩
  else if realNumOfCpus > INT32_MAX then
    .returned ⟨TooManyCpus, some 0, some none, some 0, affinity, trace⟩
  else
    let realSize := CPU_ALLOC_SIZE realNumOfCpus.toNat
    if env.allocOk 1 = false then
      .returned ⟨FailedToAllocComparisonCpuSet, some 0, some none, some 0, affinity,
        trace ++ [.alloc realSize false]⟩
    else if env.sched_getaffinity affinity realSize = false then
      .returned ⟨FailedToGetAffinity, some 0, some none, some 0, affinity,
        trace ++ [.alloc realSize true, .sched_getaffinity realSize false]⟩
    else
      let realcpuset := readBack affinity realSize
      let numOfLongs := numOfLongs realNumOfCpus
      let numOfBytes := numOfBytes numOfLongs
      if env.allocOk 2 = false then
        .returned ⟨FailedToAllocComparisonMask, some 0, some none, some 0, affinity,
          trace ++ [.alloc realSize true, .sched_getaffinity realSize true,
            .alloc (toU64 numOfLongs * 8) false]⟩
      else
        match raise realcpuset numOfLongs numOfBytes with
        | .fault f => .fault f
        | .returned comparisonMask =>
          .returned ⟨Success, some env.gettid, some (some comparisonMask),
            some (toU64 numOfLongs),
            affinity,
            trace ++ [.alloc realSize true, .sched_getaffinity realSize true,
              .alloc (toU64 numOfLongs * 8) true]⟩

/-- The function `ResetAffinityUnsafe` of ResetAffinityLinux.c. -/
def ResetAffinityUnsafe (env : Env) (affinity : List Nat) (tid : Option Int)
    (appliedAffinityMask : Option (Option (List Nat))) (appliedMaskLength : Option Nat) :
    Run Ret :=
  match tid, appliedAffinityMask, appliedMaskLength with
  | some _, some _, some _ =>
    let numOfCpus := env.nprocs
    if numOfCpus ≤ 0 then
      .returned ⟨FailedToGetRealNumCpus, some 0, some none, some 0, affinity, []⟩
    else if numOfCpus > INT32_MAX then
      .returned ⟨TooManyCpus, some 0, some none, some 0, affinity, []⟩
    else
      let size := CPU_ALLOC_SIZE numOfCpus.toNat
      if env.allocOk 0 = false then
        .returned ⟨FailedToAllocCpuSet, some 0, some none, some 0, affinity,
          [.alloc size false]⟩
      else
        let cpuset := allCpus numOfCpus.toNat size
        match env.sched_setaffinity affinity cpuset with
        | none =>
          .returned ⟨FailedToSetAffinity, some 0, some none, some 0, affinity,
            [.alloc size true, .sched_setaffinity cpuset false]⟩
        | some affinity' =>
          readBackPhase env affinity' [.alloc size true, .sched_setaffinity cpuset true]
  | _, _, _ =>
    .returned ⟨InvalidArgInitialization, tid, appliedAffinityMask, appliedMaskLength,
      affinity, []⟩

end ResetAffinityLinux

/-! ## PinThreadLinux.c -/

/-- State at return of `PinThreadLinux`: return code, thread-id slot, live affinity and
trace of the call. -/
structure PinRet where
  code : Int
  tid : Int
  affinity : List Nat
  trace : List Event
deriving DecidableEq, Repr

/-- The inner loop `for (j = 0; j < 64; j++)` of `PinThreadLinux`; `unsigned int`
arithmetic wraps at `2 ^ 32`. -/
def pinBits (currLong lastIndex i size : Nat) : List Nat → List Nat → List Nat
  | [], cpuset => cpuset
  | j :: js, cpuset =>
    let extractionMask := (1 <<< j) % 2 ^ 64
    let extractedBit := (extractionMask &&& currLong) >>> j
    if extractedBit = 1 then
      let realBitPosition := (j + ((lastIndex - i) * 64) % 2 ^ 32) % 2 ^ 32
      pinBits currLong lastIndex i size js (CPU_SET_S realBitPosition size cpuset)
    else pinBits currLong lastIndex i size js cpuset

/-- The outer loop `for (i = lastIndex; i >= 0; i--)` of `PinThreadLinux`; the argument is
`i + 1`. -/
def pinWords (mask : List Nat) (lastIndex size : Nat) : Nat → List Nat → Run (List Nat)
  | 0, cpuset => .returned cpuset
  | i + 1, cpuset =>
    match mask[i]? with
    | none => .fault .readOutOfBounds
    | some currLong =>
      pinWords mask lastIndex size i (pinBits currLong lastIndex i size (List.range 64) cpuset)

/-- The function `PinThreadLinux` of PinThreadLinux.c; `maskLength` is an `unsigned int`. The loop
variable is an `int`: a `lastIndex` of `2 ^ 31` or more converts to a negative value and
the loop body never runs. -/
def PinThreadLinux (env : Env) (affinity : List Nat) (mask : Option (List Nat))
    (maskLength : Nat) (tid : Option Int) : Run PinRet :=
  match tid with
  | none => .fault .nullDeref
  | some _ =>
    if maskLength = 0 then .returned ⟨-1, env.gettid, affinity, []⟩
    else
      let lastIndex := maskLength - 1
      let numOfCpus := (maskLength * 64) % 2 ^ 32
      let size := CPU_ALLOC_SIZE numOfCpus
      if env.allocOk 0 = false then
        .returned ⟨-1, env.gettid, affinity, [.alloc size false]⟩
      else
        let lowered : Run (List Nat) :=
          if lastIndex < 2 ^ 31 then
            match mask with
            | none => .fault .nullDeref
            | some words => pinWords words lastIndex size (lastIndex + 1) (CPU_ZERO_S size)
          else .returned (CPU_ZERO_S size)
        match lowered with
        | .fault f => .fault f
        | .returned cpuset =>
          match env.sched_setaffinity affinity cpuset with
          | none =>
            .returned ⟨-1, env.gettid, affinity,
              [.alloc size true, .sched_setaffinity cpuset false]⟩
          | some affinity' =>
            .returned ⟨0, env.gettid, affinity',
              [.alloc size true, .sched_setaffinity cpuset true]⟩

/-! ## UnpinThreadLinux.c -/

namespace UnpinThreadLinux

/-! The values of `enum OutcomeCode` (UnpinThreadLinux.c, lines 8-13). -/

def FailedToGetRealNumCpus : Int := -1
def FailedToAllocCpuSet : Int := -2
def FailedToSetAffinity : Int := -3
def Success : Int := 0

/-- State at return of `UnpinThread`: return code, live affinity and trace of the call. -/
structure UnpinRet where
  code : Int
  affinity : List Nat
  trace : List Event
deriving DecidableEq, Repr

/-- Lines 28-30: `for (i = 0; i < (uint64_t)numOfCpus; i++) CPU_SET_S(i, size, cpuset)` on a
cleared set. -/
def allCpus (numOfCpus size : Nat) : List Nat :=
  (List.range numOfCpus).foldl (fun cpuset i => CPU_SET_S i size cpuset) (CPU_ZERO_S size)

/-- The function `UnpinThread` of UnpinThreadLinux.c. -/
def UnpinThread (env : Env) (affinity : List Nat) : Run UnpinRet :=
  let numOfCpus := env.nprocs
  if numOfCpus ≤ 0 then .returned ⟨FailedToGetRealNumCpus, affinity, []⟩
  else
    let size := CPU_ALLOC_SIZE numOfCpus.toNat
    if env.allocOk 0 = false then
      .returned ⟨FailedToAllocCpuSet, affinity, [.alloc size false]⟩
    else
      let cpuset := allCpus numOfCpus.toNat size
      match env.sched_setaffinity affinity cpuset with
      | none =>
        .returned ⟨FailedToSetAffinity, affinity,
          [.alloc size true, .sched_setaffinity cpuset false]⟩
      | some affinity' =>
        .returned ⟨Success, affinity', [.alloc size true, .sched_setaffinity cpuset true]⟩

end UnpinThreadLinux

/-! ## Threading/Thread/ForeignFunctions/Windows/src/SetAffinity/SetAffinityWindows.c -/

namespace SetAffinityWindows

/-! The values of `enum OutcomeCode` (SetAffinityWindows.c, lines 4-10). -/

def InvalidArgInitialization : Int := -1
def FailedToGetHandle : Int := -2
def SetThreadAffinityMaskFailed : Int := -3
def AppliedMaskDoesNotMatch : Int := -4
def Success : Int := 0

/-- State at return of the Windows `SetAffinityUnsafe`: return code, the output slot
(`none` is a `NULL` pointer) and the state of the native primitive. -/
structure WinRet (σ : Type) where
  code : Int
  appliedAffinityMask : Option Nat
  state : σ

/-- The function `SetAffinityUnsafe` of SetAffinityWindows.c (Threading/Thread variant).
The native primitive `SetThreadAffinityMask` maps a state and a mask to the value it returns
(a 64-bit `DWORD_PTR`) and the next state. The source passes an identifier `affinityMask`
that the function does not declare; it is read as the supplied mask. -/
def SetAffinityUnsafe {σ : Type} (SetThreadAffinityMask : σ → Nat → Nat × σ) (state : σ)
    (suppliedAffinityMask : Nat) (appliedAffinityMask : Option Nat) : WinRet σ :=
  match appliedAffinityMask with
  | none => ⟨InvalidArgInitialization, none, state⟩
  | some slot =>
    if suppliedAffinityMask ≤ 0 then ⟨InvalidArgInitialization, some slot, state⟩
    else
      let first := SetThreadAffinityMask state suppliedAffinityMask
      let priorMask := first.1
      let second := SetThreadAffinityMask first.2 suppliedAffinityMask
      let appliedMask := second.1
      if priorMask = 0 ∨ appliedMask = 0 then
        ⟨SetThreadAffinityMaskFailed, some 0, second.2⟩
      else if appliedMask ≠ suppliedAffinityMask then
        ⟨AppliedMaskDoesNotMatch, some appliedMask, second.2⟩
      else ⟨Success, some appliedMask, second.2⟩

/-- The native primitive under prior-mask semantics, as the comment of the source words it
("will either return the prior mask as a ulong 64bit, or return 0 which signals an
error"): the state is the mask stored for the thread; a call that the system accepts
stores the given mask and returns the mask stored before, a call that it rejects returns 0
and stores nothing. -/
def priorMaskPrimitive (accepts : Nat → Nat → Bool) (stored mask : Nat) : Nat × Nat :=
  if accepts stored mask = true then (stored, mask) else (0, stored)

end SetAffinityWindows

/-! ## Concrete platforms used to run the functions -/

/-- The bytes of `cpuset` with only the CPUs below `allowed` kept. -/
def keepBelow (allowed : Nat) (cpuset : List Nat) : List Nat :=
  (List.range cpuset.length).map (fun i => cpuset.getD i 0 % 2 ^ (min 8 (allowed - 8 * i)))

/-- A machine reporting `nprocs` CPUs whose kernel accepts every request and stores the
requested CPUs below `allowed`; thread id 1234, no allocation fails, every query
succeeds. -/
def machine (nprocs : Int) (allowed : Nat) : Env where
  gettid := 1234
  nprocs := nprocs
  allocOk := fun _ => true
  sched_setaffinity := fun _ cpuset => some (keepBelow allowed cpuset)
  sched_getaffinity := fun _ _ => true

/-- The platform `env` with the `k`-th allocation of a call failing. -/
def failingAlloc (k : Nat) (env : Env) : Env :=
  { env with allocOk := fun i => decide (i ≠ k) && env.allocOk i }

/-- The platform `env` with a kernel that rejects every `sched_setaffinity`. -/
def rejectingApply (env : Env) : Env :=
  { env with sched_setaffinity := fun _ _ => none }

/-! ## Helper lemmas: bits of the native set -/

theorem extracted_bit_ne_zero_iff (w j : Nat) (hj : j < 64) :
    ((((1 <<< j) % 2 ^ 64) &&& w) >>> j) % 256 ≠ 0 ↔ w.testBit j = true := by
  have h1 : (1 <<< j) % 2 ^ 64 = 2 ^ j := by
    rw [Nat.one_shiftLeft]
    exact Nat.mod_eq_of_lt (Nat.pow_lt_pow_right (by norm_num) hj)
  rw [h1]
  have h2 : ((2 ^ j &&& w) >>> j) = (if w.testBit j then 1 else 0) := by
    apply Nat.eq_of_testBit_eq
    intro k
    rw [Nat.testBit_shiftRight, Nat.testBit_and, Nat.testBit_two_pow]
    by_cases hk : k = 0
    · subst hk
      by_cases hw : w.testBit j <;> simp [hw]
    · have : ¬ (j = j + k) := by omega
      by_cases hw : w.testBit j
      · simp [hw, this]
        rw [Nat.testBit_one_eq_true_iff_self_eq_zero.not.mpr hk |> Bool.eq_false_iff.mpr]
      · simp [hw, this]
  rw [h2]
  by_cases hw : w.testBit j <;> simp [hw]

theorem length_CPU_SET_S (c size : Nat) (cpuset : List Nat) :
    (CPU_SET_S c size cpuset).length = cpuset.length := by
  unfold CPU_SET_S
  split <;> simp

theorem isset_CPU_SET_S (c r size : Nat) (cpuset : List Nat) (hlen : cpuset.length = size)
    (hc : c / 8 < size) :
    CPU_ISSET_S r size (CPU_SET_S c size cpuset)
      = (decide (r = c) || CPU_ISSET_S r size cpuset) := by
  unfold CPU_ISSET_S CPU_SET_S
  rw [if_pos hc]
  by_cases hr : r / 8 < size
  · by_cases hb : r / 8 = c / 8
    · have hget : ((cpuset.set (c / 8) (cpuset.getD (c / 8) 0 ||| 1 <<< (c % 8))).getD (r / 8) 0)
          = cpuset.getD (c / 8) 0 ||| 1 <<< (c % 8) := by
        simp [hb, List.getElem?_set, hlen, hc]
      rw [hget, Nat.testBit_or, Nat.one_shiftLeft, Nat.testBit_two_pow, hb]
      by_cases hm : c % 8 = r % 8
      · have : r = c := by omega
        simp [this, hc]
      · have : r ≠ c := by intro h; subst h; exact hm rfl
        simp [this, hm]
    · have hget : ((cpuset.set (c / 8) (cpuset.getD (c / 8) 0 ||| 1 <<< (c % 8))).getD (r / 8) 0)
          = cpuset.getD (r / 8) 0 := by
        simp [List.getElem?_set, Ne.symm hb]
      have : r ≠ c := by intro h; subst h; exact hb rfl
      rw [hget]
      simp [this]
  · have : r ≠ c := by intro h; subst h; exact hr hc
    simp [hr, this]

theorem isset_CPU_ZERO_S (r size : Nat) : CPU_ISSET_S r size (CPU_ZERO_S size) = false := by
  unfold CPU_ISSET_S CPU_ZERO_S
  by_cases hr : r / 8 < size
  · simp [List.getElem?_replicate, hr]
  · simp [hr]

/-! ## Helper lemmas: the lowering loop -/

theorem lowerBits_spec (currLong maskLength i size : Nat)
    (hoff : (maskLength - i) * 64 + 63 ≤ INT_MAX)
    (hsize : (maskLength - i) * 64 + 64 ≤ 8 * size) :
    ∀ (js : List Nat) (cpuset : List Nat), (∀ j ∈ js, j < 64) → cpuset.length = size →
      ∃ cpuset', lowerBits currLong maskLength i size js cpuset = some cpuset' ∧
        cpuset'.length = size ∧
        ∀ r, CPU_ISSET_S r size cpuset' = true ↔
          (CPU_ISSET_S r size cpuset = true ∨
            ∃ j ∈ js, r = (maskLength - i) * 64 + j ∧ currLong.testBit j = true) := by
  intro js
  induction js with
  | nil =>
    intro cpuset _ hlen
    exact ⟨cpuset, rfl, hlen, by simp⟩
  | cons j js ih =>
    intro cpuset hjs hlen
    have hj : j < 64 := hjs j (List.mem_cons_self _ _)
    have hjs' : ∀ x ∈ js, x < 64 := fun x hx => hjs x (List.mem_cons_of_mem _ hx)
    have hpos : (j + ((maskLength - i) * 64) % 2 ^ 64) % 2 ^ 64 = (maskLength - i) * 64 + j := by
      unfold INT_MAX at hoff
      omega
    unfold lowerBits
    simp only [hpos]
    by_cases hbit : currLong.testBit j = true
    · have hne := (extracted_bit_ne_zero_iff currLong j hj).mpr hbit
      rw [if_pos hne]
      have hnot : ¬ ((maskLength - i) * 64 + j > INT_MAX) := by omega
      rw [if_neg hnot]
      have hc : ((maskLength - i) * 64 + j) / 8 < size := by omega
      obtain ⟨cpuset', hrun, hlen', hbits⟩ :=
        ih (CPU_SET_S ((maskLength - i) * 64 + j) size cpuset) hjs'
          (by rw [length_CPU_SET_S]; exact hlen)
      refine ⟨cpuset', hrun, hlen', ?_⟩
      intro r
      rw [hbits r, isset_CPU_SET_S _ _ _ _ hlen hc]
      constructor
      · rintro (h | ⟨x, hx, hr, hb⟩)
        · simp only [Bool.or_eq_true, decide_eq_true_eq] at h
          rcases h with h | h
          · exact Or.inr ⟨j, List.mem_cons_self _ _, h, hbit⟩
          · exact Or.inl h
        · exact Or.inr ⟨x, List.mem_cons_of_mem _ hx, hr, hb⟩
      · rintro (h | ⟨x, hx, hr, hb⟩)
        · left; simp [h]
        · rcases List.mem_cons.mp hx with hxj | hxjs
          · subst hxj; left; simp [hr]
          · exact Or.inr ⟨x, hxjs, hr, hb⟩
    · have hne : ¬ (((((1 <<< j) % 2 ^ 64) &&& currLong) >>> j) % 256 ≠ 0) :=
        fun h => hbit ((extracted_bit_ne_zero_iff currLong j hj).mp h)
      rw [if_neg hne]
      obtain ⟨cpuset', hrun, hlen', hbits⟩ := ih cpuset hjs' hlen
      refine ⟨cpuset', hrun, hlen', ?_⟩
      intro r
      rw [hbits r]
      constructor
      · rintro (h | ⟨x, hx, hr, hb⟩)
        · exact Or.inl h
        · exact Or.inr ⟨x, List.mem_cons_of_mem _ hx, hr, hb⟩
      · rintro (h | ⟨x, hx, hr, hb⟩)
        · exact Or.inl h
        · rcases List.mem_cons.mp hx with hxj | hxjs
          · subst hxj; exact absurd hb hbit
          · exact Or.inr ⟨x, hxjs, hr, hb⟩

theorem lowerWords_spec (mask : List Nat) (size : Nat)
    (hmax : 64 * mask.length ≤ INT_MAX + 1) (hsize : 64 * mask.length ≤ 8 * size) :
    ∀ (i : Nat), i ≤ mask.length → ∀ (cpuset : List Nat), cpuset.length = size →
      ∃ cpuset', lowerWords mask mask.length size i cpuset = .done cpuset' ∧
        cpuset'.length = size ∧
        ∀ r, CPU_ISSET_S r size cpuset' = true ↔
          (CPU_ISSET_S r size cpuset = true ∨
            ∃ k, k < i ∧ ∃ j, j < 64 ∧ r = (mask.length - (k + 1)) * 64 + j ∧
              (mask.getD k 0).testBit j = true) := by
  intro i
  induction i with
  | zero =>
    intro _ cpuset hlen
    exact ⟨cpuset, rfl, hlen, by simp⟩
  | succ i ih =>
    intro hi cpuset hlen
    have hlt : i < mask.length := hi
    have hget : mask[i]? = some (mask.getD i 0) := by
      simp [List.getElem?_eq_getElem hlt]
    unfold lowerWords
    rw [hget]
    simp only
    obtain ⟨c1, hrun1, hlen1, hbits1⟩ :=
      lowerBits_spec (mask.getD i 0) mask.length (i + 1) size
        (by unfold INT_MAX at *; omega) (by omega) (List.range 64) cpuset
        (fun j hj => List.mem_range.mp hj) hlen
    rw [hrun1]
    simp only
    obtain ⟨c2, hrun2, hlen2, hbits2⟩ := ih (Nat.le_of_lt hlt) c1 hlen1
    refine ⟨c2, hrun2, hlen2, ?_⟩
    intro r
    rw [hbits2 r, hbits1 r]
    constructor
    · rintro ((h | ⟨j, hj, hr, hb⟩) | ⟨k, hk, j, hj, hr, hb⟩)
      · exact Or.inl h
      · exact Or.inr ⟨i, Nat.lt_succ_self i, j, List.mem_range.mp hj, hr, hb⟩
      · exact Or.inr ⟨k, Nat.lt_succ_of_lt hk, j, hj, hr, hb⟩
    · rintro (h | ⟨k, hk, j, hj, hr, hb⟩)
      · exact Or.inl (Or.inl h)
      · rcases Nat.lt_succ_iff_lt_or_eq.mp hk with hk' | hk'
        · exact Or.inr ⟨k, hk', j, hj, hr, hb⟩
        · subst hk'
          exact Or.inl (Or.inr ⟨j, List.mem_range.mpr hj, hr, hb⟩)

theorem CPU_ALLOC_SIZE_mask (L : Nat) (hmax : 64 * L ≤ INT_MAX + 1) :
    CPU_ALLOC_SIZE ((L * 64) % 2 ^ 64) = 8 * L := by
  unfold CPU_ALLOC_SIZE
  unfold INT_MAX at hmax
  omega

theorem lower_done (mask : List Nat) (hmax : 64 * mask.length ≤ INT_MAX + 1) :
    ∃ cpuset, lower mask mask.length = .done cpuset ∧
      cpuset.length = 8 * mask.length ∧
      ∀ r, CPU_ISSET_S r (8 * mask.length) cpuset = true ↔
        (r < 64 * mask.length ∧
          (mask.getD (mask.length - 1 - r / 64) 0).testBit (r % 64) = true) := by
  unfold lower
  simp only [CPU_ALLOC_SIZE_mask mask.length hmax]
  obtain ⟨cpuset, hrun, hlen, hbits⟩ :=
    lowerWords_spec mask (8 * mask.length) hmax (by omega) mask.length (Nat.le_refl _)
      (CPU_ZERO_S (8 * mask.length)) (by simp [CPU_ZERO_S])
  refine ⟨cpuset, hrun, hlen, ?_⟩
  intro r
  rw [hbits r, isset_CPU_ZERO_S]
  constructor
  · rintro (h | ⟨k, hk, j, hj, hr, hb⟩)
    · exact absurd h (by simp)
    · have h1 : r / 64 = mask.length - (k + 1) := by omega
      have h2 : r % 64 = j := by omega
      have h3 : mask.length - 1 - r / 64 = k := by omega
      refine ⟨by omega, ?_⟩
      rw [h3, h2]; exact hb
  · rintro ⟨hr, hb⟩
    refine Or.inr ⟨mask.length - 1 - r / 64, by omega, r % 64, Nat.mod_lt _ (by norm_num), ?_, hb⟩
    have : r / 64 < mask.length := by omega
    have h4 : mask.length - (mask.length - 1 - r / 64 + 1) = r / 64 := by omega
    rw [h4]
    omega

/-! ## Helper lemmas: the read-back loop stays inside its buffers -/

theorem raiseBits_returns (currByte numOfLongs i : Nat) (hi : i < 8 * numOfLongs)
    (hN : numOfLongs < 2 ^ 60) :
    ∀ (js : List Nat) (out : List Nat), out.length = numOfLongs →
      ∃ out', raiseBits currByte numOfLongs i js out = .returned out' ∧
        out'.length = numOfLongs := by
  intro js
  induction js with
  | nil =>
    intro out hlen
    exact ⟨out, rfl, hlen⟩
  | cons j js ih =>
    intro out hlen
    have hidx : (numOfLongs + 2 ^ 64 - ((i + 8) % 2 ^ 64) / 8) % 2 ^ 64
        = numOfLongs - (i / 8 + 1) := by omega
    have hlt : numOfLongs - (i / 8 + 1) < out.length := by omega
    unfold raiseBits
    simp only [hidx, List.getElem?_eq_getElem hlt]
    exact ih _ (by rw [List.length_set]; exact hlen)

theorem raiseBytes_returns (realcpuset : List Nat) (numOfLongs : Nat) (hN : numOfLongs < 2 ^ 60) :
    ∀ (is : List Nat) (out : List Nat),
      (∀ i ∈ is, i < realcpuset.length ∧ i < 8 * numOfLongs) → out.length = numOfLongs →
      ∃ out', raiseBytes realcpuset numOfLongs is out = .returned out' ∧
        out'.length = numOfLongs := by
  intro is
  induction is with
  | nil =>
    intro out _ hlen
    exact ⟨out, rfl, hlen⟩
  | cons i is ih =>
    intro out his hlen
    obtain ⟨hi1, hi2⟩ := his i (List.mem_cons_self _ _)
    obtain ⟨out1, hrun1, hlen1⟩ :=
      raiseBits_returns realcpuset[i] numOfLongs i hi2 hN (List.range 8) out hlen
    unfold raiseBytes
    simp only [List.getElem?_eq_getElem hi1, hrun1]
    exact ih out1 (fun x hx => his x (List.mem_cons_of_mem _ hx)) hlen1

theorem raise_returns (realcpuset : List Nat) (n : Nat) (hn : n < 2 ^ 63)
    (hsize : numOfBytes (numOfLongs n) ≤ realcpuset.length) :
    ∃ words, raise realcpuset (numOfLongs n) (numOfBytes (numOfLongs n)) = .returned words ∧
      words.length = numOfLongs n := by
  have hN : numOfLongs n < 2 ^ 60 := by unfold numOfLongs; omega
  unfold raise
  apply raiseBytes_returns realcpuset (numOfLongs n) hN
  · intro i hi
    have hi' := List.mem_range.mp hi
    refine ⟨by omega, ?_⟩
    unfold numOfBytes at hi'
    omega
  · simp

theorem length_readBack (affinity : List Nat) (realSize : Nat) :
    (readBack affinity realSize).length = realSize := by
  simp [readBack]

theorem numOfBytes_eq_CPU_ALLOC_SIZE (n : Nat) (hn : n < 2 ^ 63) (h64 : n % 64 ≠ 0) :
    numOfBytes (numOfLongs n) = CPU_ALLOC_SIZE n := by
  unfold numOfBytes numOfLongs CPU_ALLOC_SIZE
  omega

/-! ## Helper lemmas: the three copies of the read-back loop -/

theorem Get_raiseBits_eq (currByte : Nat) (N : Int) (i : Nat) :
    ∀ (js out : List Nat), GetAffinityLinux.raiseBits currByte N i js out
      = raiseBits currByte (GetAffinityLinux.toU64 N) i js out := by
  intro js
  induction js with
  | nil => intro out; rfl
  | cons j js ih =>
    intro out
    unfold GetAffinityLinux.raiseBits raiseBits
    simp only
    split
    · rfl
    · exact ih _

theorem Get_raiseBytes_eq (realcpuset : List Nat) (N : Int) :
    ∀ (is out : List Nat), GetAffinityLinux.raiseBytes realcpuset N is out
      = raiseBytes realcpuset (GetAffinityLinux.toU64 N) is out := by
  intro is
  induction is with
  | nil => intro out; rfl
  | cons i is ih =>
    intro out
    unfold GetAffinityLinux.raiseBytes raiseBytes
    split
    · rfl
    · rw [Get_raiseBits_eq]
      split
      · rfl
      · exact ih _

theorem Get_raise_eq (realcpuset : List Nat) (N : Int) (numOfBytes : Nat) :
    GetAffinityLinux.raise realcpuset N numOfBytes
      = raise realcpuset (GetAffinityLinux.toU64 N) numOfBytes := by
  unfold GetAffinityLinux.raise raise
  exact Get_raiseBytes_eq _ _ _ _

theorem Reset_raiseBits_eq (currByte : Nat) (N : Int) (i : Nat) :
    ∀ (js out : List Nat), ResetAffinityLinux.raiseBits currByte N i js out
      = raiseBits currByte (ResetAffinityLinux.toU64 N) i js out := by
  intro js
  induction js with
  | nil => intro out; rfl
  | cons j js ih =>
    intro out
    unfold ResetAffinityLinux.raiseBits raiseBits
    simp only
    split
    · rfl
    · exact ih _

theorem Reset_raiseBytes_eq (realcpuset : List Nat) (N : Int) :
    ∀ (is out : List Nat), ResetAffinityLinux.raiseBytes realcpuset N is out
      = raiseBytes realcpuset (ResetAffinityLinux.toU64 N) is out := by
  intro is
  induction is with
  | nil => intro out; rfl
  | cons i is ih =>
    intro out
    unfold ResetAffinityLinux.raiseBytes raiseBytes
    split
    · rfl
    · rw [Reset_raiseBits_eq]
      split
      · rfl
      · exact ih _

theorem Reset_raise_eq (realcpuset : List Nat) (N : Int) (numOfBytes : Nat) :
    ResetAffinityLinux.raise realcpuset N numOfBytes
      = raise realcpuset (ResetAffinityLinux.toU64 N) numOfBytes := by
  unfold ResetAffinityLinux.raise raise
  exact Reset_raiseBytes_eq _ _ _ _

theorem signed_word_count_eq (n : Int) (h1 : 1 ≤ n) (hmax : n ≤ INT32_MAX) :
    (((n + 64).tdiv 64) % 2 ^ 64).toNat = numOfLongs n.toNat := by
  unfold INT32_MAX at hmax
  unfold numOfLongs
  rw [Int.tdiv_eq_ediv (by omega) (by omega)]
  omega

theorem Get_numOfLongs_eq (n : Int) (h1 : 1 ≤ n) (hmax : n ≤ INT32_MAX) :
    GetAffinityLinux.toU64 (GetAffinityLinux.numOfLongs n) = numOfLongs n.toNat :=
  signed_word_count_eq n h1 hmax

theorem Reset_numOfLongs_eq (n : Int) (h1 : 1 ≤ n) (hmax : n ≤ INT32_MAX) :
    ResetAffinityLinux.toU64 (ResetAffinityLinux.numOfLongs n) = numOfLongs n.toNat :=
  signed_word_count_eq n h1 hmax

theorem raiseBits_length (currByte numOfLongs i : Nat) :
    ∀ (js out out' : List Nat), raiseBits currByte numOfLongs i js out = .returned out' →
      out'.length = out.length := by
  intro js
  induction js with
  | nil =>
    intro out out' h
    simp only [raiseBits, Run.returned.injEq] at h
    rw [h]
  | cons j js ih =>
    intro out out' h
    unfold raiseBits at h
    simp only at h
    split at h
    · exact Run.noConfusion h
    · rw [ih _ _ h, List.length_set]

theorem raiseBytes_length (realcpuset : List Nat) (numOfLongs : Nat) :
    ∀ (is out out' : List Nat), raiseBytes realcpuset numOfLongs is out = .returned out' →
      out'.length = out.length := by
  intro is
  induction is with
  | nil =>
    intro out out' h
    simp only [raiseBytes, Run.returned.injEq] at h
    rw [h]
  | cons i is ih =>
    intro out out' h
    unfold raiseBytes at h
    split at h
    · exact Run.noConfusion h
    · split at h
      · exact Run.noConfusion h
      · rename_i _ _ _ out1 hbits
        rw [ih _ _ h, raiseBits_length _ _ _ _ _ _ hbits]

theorem raise_length (realcpuset : List Nat) (numOfLongs numOfBytes : Nat) (words : List Nat)
    (h : raise realcpuset numOfLongs numOfBytes = .returned words) :
    words.length = numOfLongs := by
  unfold raise at h
  rw [raiseBytes_length _ _ _ _ _ h, List.length_replicate]

/-! ## Helper lemmas: the set with every CPU below the count -/

theorem isset_foldl_CPU_SET_S (size r : Nat) :
    ∀ (cs cpuset : List Nat), cpuset.length = size → (∀ c ∈ cs, c / 8 < size) →
      (CPU_ISSET_S r size (cs.foldl (fun cpuset i => CPU_SET_S i size cpuset) cpuset) = true ↔
        (r ∈ cs ∨ CPU_ISSET_S r size cpuset = true)) := by
  intro cs
  induction cs with
  | nil => intro cpuset _ _; simp
  | cons c cs ih =>
    intro cpuset hlen hcs
    have hc : c / 8 < size := hcs c (List.mem_cons_self _ _)
    rw [List.foldl_cons, ih (CPU_SET_S c size cpuset) (by rw [length_CPU_SET_S]; exact hlen)
      (fun x hx => hcs x (List.mem_cons_of_mem _ hx)), isset_CPU_SET_S _ _ _ _ hlen hc]
    simp only [Bool.or_eq_true, decide_eq_true_eq, List.mem_cons]
    tauto

theorem isset_all_cpus (n r : Nat) (hn : n < 2 ^ 63) :
    CPU_ISSET_S r (CPU_ALLOC_SIZE n)
        ((List.range n).foldl (fun cpuset i => CPU_SET_S i (CPU_ALLOC_SIZE n) cpuset)
          (CPU_ZERO_S (CPU_ALLOC_SIZE n))) = true ↔ r < n := by
  rw [isset_foldl_CPU_SET_S (CPU_ALLOC_SIZE n) r (List.range n) _ (by simp [CPU_ZERO_S])
    (by
      intro c hc
      have hc' := List.mem_range.mp hc
      unfold CPU_ALLOC_SIZE
      omega)]
  simp [isset_CPU_ZERO_S]

/-! ## Helper lemmas: when the lowering loop stops with RealBitPositionTooLarge -/

theorem lowerBits_none_iff (currLong maskLength i size : Nat)
    (hwrap : (maskLength - i) * 64 + 64 ≤ 2 ^ 64) :
    ∀ (js cpuset : List Nat), (∀ j ∈ js, j < 64) →
      (lowerBits currLong maskLength i size js cpuset = none ↔
        ∃ j ∈ js, currLong.testBit j = true ∧ (maskLength - i) * 64 + j > INT_MAX) := by
  intro js
  induction js with
  | nil => intro cpuset _; simp [lowerBits]
  | cons j js ih =>
    intro cpuset hjs
    have hj : j < 64 := hjs j (List.mem_cons_self _ _)
    have hjs' : ∀ x ∈ js, x < 64 := fun x hx => hjs x (List.mem_cons_of_mem _ hx)
    have hpos : (j + ((maskLength - i) * 64) % 2 ^ 64) % 2 ^ 64 = (maskLength - i) * 64 + j := by
      omega
    unfold lowerBits
    simp only [hpos]
    by_cases hbit : currLong.testBit j = true
    · rw [if_pos ((extracted_bit_ne_zero_iff currLong j hj).mpr hbit)]
      by_cases hbig : (maskLength - i) * 64 + j > INT_MAX
      · rw [if_pos hbig]
        simp only [true_iff]
        exact ⟨j, List.mem_cons_self _ _, hbit, hbig⟩
      · rw [if_neg hbig, ih _ hjs']
        constructor
        · rintro ⟨x, hx, hb, hg⟩
          exact ⟨x, List.mem_cons_of_mem _ hx, hb, hg⟩
        · rintro ⟨x, hx, hb, hg⟩
          rcases List.mem_cons.mp hx with rfl | hx'
          · exact absurd hg hbig
          · exact ⟨x, hx', hb, hg⟩
    · have hne : ¬ (((((1 <<< j) % 2 ^ 64) &&& currLong) >>> j) % 256 ≠ 0) :=
        fun h => hbit ((extracted_bit_ne_zero_iff currLong j hj).mp h)
      rw [if_neg hne, ih _ hjs']
      constructor
      · rintro ⟨x, hx, hb, hg⟩
        exact ⟨x, List.mem_cons_of_mem _ hx, hb, hg⟩
      · rintro ⟨x, hx, hb, hg⟩
        rcases List.mem_cons.mp hx with rfl | hx'
        · exact absurd hb hbit
        · exact ⟨x, hx', hb, hg⟩

theorem lowerWords_tooLarge_iff (mask : List Nat) (size : Nat)
    (hov : 64 * mask.length < 2 ^ 64) :
    ∀ (i : Nat), i ≤ mask.length → ∀ (cpuset : List Nat),
      lowerWords mask mask.length size i cpuset ≠ .outOfBounds ∧
      (lowerWords mask mask.length size i cpuset = .tooLarge ↔
        ∃ k j, k < i ∧ j < 64 ∧ (mask.getD k 0).testBit j = true ∧
          (mask.length - (k + 1)) * 64 + j > INT_MAX) := by
  intro i
  induction i with
  | zero =>
    intro _ cpuset
    simp [lowerWords]
  | succ i ih =>
    intro hi cpuset
    have hlt : i < mask.length := hi
    have hget : mask[i]? = some (mask.getD i 0) := by
      simp [List.getElem?_eq_getElem hlt]
    have hiff := lowerBits_none_iff (mask.getD i 0) mask.length (i + 1) size (by omega)
      (List.range 64) cpuset (fun j hj => List.mem_range.mp hj)
    unfold lowerWords
    rw [hget]
    simp only
    cases hbits : lowerBits (mask.getD i 0) mask.length (i + 1) size (List.range 64) cpuset with
    | none =>
      simp only
      refine ⟨by simp, ?_⟩
      simp only [true_iff]
      obtain ⟨j, hj, hb, hg⟩ := hiff.mp hbits
      exact ⟨i, j, Nat.lt_succ_self i, List.mem_range.mp hj, hb, hg⟩
    | some c1 =>
      simp only
      obtain ⟨hne, hrec⟩ := ih (Nat.le_of_lt hlt) c1
      refine ⟨hne, ?_⟩
      rw [hrec]
      constructor
      · rintro ⟨k, j, hk, hj, hb, hg⟩
        exact ⟨k, j, Nat.lt_succ_of_lt hk, hj, hb, hg⟩
      · rintro ⟨k, j, hk, hj, hb, hg⟩
        rcases Nat.lt_succ_iff_lt_or_eq.mp hk with hk' | hk'
        · exact ⟨k, j, hk', hj, hb, hg⟩
        · subst hk'
          have : lowerBits (mask.getD k 0) mask.length (k + 1) size (List.range 64) cpuset
              = none := hiff.mpr ⟨j, List.mem_range.mpr hj, hb, hg⟩
          rw [this] at hbits
          exact Option.noConfusion hbits

theorem Set_readBackPhase_code_ne (env : Env) (affinity : List Nat) (tid : Int)
    (trace : List Event) :
    (SetAffinityLinux.readBackPhase env affinity tid trace).code?
      ≠ some SetAffinityLinux.RealBitPositionTooLarge := by
  simp only [SetAffinityLinux.readBackPhase]
  repeat' split
  all_goals simp [Run.code?, SetAffinityLinux.RealBitPositionTooLarge,
    SetAffinityLinux.FailedToGetRealNumCpus, SetAffinityLinux.FailedToAllocRealCpuSet,
    SetAffinityLinux.FailedToGetAffinity, SetAffinityLinux.FailedToAllocComparisonMask,
    SetAffinityLinux.Success]

theorem Set_readBackPhase_shape (env : Env) (affinity : List Nat) (tid : Int)
    (trace : List Event) (r : Ret)
    (h : SetAffinityLinux.readBackPhase env affinity tid trace = .returned r) :
    r.affinity = affinity ∧
    ∃ t m l, r.tid = some t ∧ r.appliedAffinityMask = some m ∧ r.appliedMaskLength = some l := by
  simp only [SetAffinityLinux.readBackPhase] at h
  repeat' split at h
  all_goals first
    | exact Run.noConfusion h
    | (simp only [Run.returned.injEq] at h
       subst h
       simp)

/-! ## Helper lemmas: the lowering loop of PinThreadLinux -/

theorem extracted_bit_value (w j : Nat) (hj : j < 64) :
    (((1 <<< j) % 2 ^ 64) &&& w) >>> j = if w.testBit j = true then 1 else 0 := by
  have h1 : (1 <<< j) % 2 ^ 64 = 2 ^ j := by
    rw [Nat.one_shiftLeft]
    exact Nat.mod_eq_of_lt (Nat.pow_lt_pow_right (by norm_num) hj)
  rw [h1]
  apply Nat.eq_of_testBit_eq
  intro k
  rw [Nat.testBit_shiftRight, Nat.testBit_and, Nat.testBit_two_pow]
  by_cases hk : k = 0
  · subst hk
    by_cases hw : w.testBit j <;> simp [hw]
  · have hjk : ¬ (j = j + k) := by omega
    have h1k : Nat.testBit 1 k = false := by
      cases hb : Nat.testBit 1 k with
      | false => rfl
      | true => exact absurd (Nat.testBit_one_eq_true_iff_self_eq_zero.mp hb) hk
    by_cases hw : w.testBit j <;> simp [hw, hjk, h1k]

theorem pin_extracted_bit_eq_one_iff (w j : Nat) (hj : j < 64) :
    (((1 <<< j) % 2 ^ 64) &&& w) >>> j = 1 ↔ w.testBit j = true := by
  rw [extracted_bit_value w j hj]
  by_cases hw : w.testBit j = true <;> simp [hw]

theorem lowerBits_eq_pinBits (currLong L i size : Nat)
    (hoff : (L - (i + 1)) * 64 + 63 ≤ INT_MAX) :
    ∀ (js cpuset : List Nat), (∀ j ∈ js, j < 64) →
      lowerBits currLong L (i + 1) size js cpuset
        = some (pinBits currLong (L - 1) i size js cpuset) := by
  intro js
  induction js with
  | nil => intro cpuset _; rfl
  | cons j js ih =>
    intro cpuset hjs
    have hj : j < 64 := hjs j (List.mem_cons_self _ _)
    have hjs' : ∀ x ∈ js, x < 64 := fun x hx => hjs x (List.mem_cons_of_mem _ hx)
    have hset : (j + ((L - (i + 1)) * 64) % 2 ^ 64) % 2 ^ 64 = (L - (i + 1)) * 64 + j := by
      unfold INT_MAX at hoff
      omega
    have hpin : (j + ((L - 1 - i) * 64) % 2 ^ 32) % 2 ^ 32 = (L - (i + 1)) * 64 + j := by
      unfold INT_MAX at hoff
      have : L - 1 - i = L - (i + 1) := by omega
      rw [this]
      omega
    unfold lowerBits pinBits
    simp only [hset, hpin]
    by_cases hbit : currLong.testBit j = true
    · rw [if_pos ((extracted_bit_ne_zero_iff currLong j hj).mpr hbit),
        if_pos ((pin_extracted_bit_eq_one_iff currLong j hj).mpr hbit),
        if_neg (by omega)]
      exact ih _ hjs'
    · rw [if_neg (fun h => hbit ((extracted_bit_ne_zero_iff currLong j hj).mp h)),
        if_neg (fun h => hbit ((pin_extracted_bit_eq_one_iff currLong j hj).mp h))]
      exact ih _ hjs'

theorem lowerWords_eq_pinWords (mask : List Nat) (size : Nat)
    (hmax : 64 * mask.length ≤ INT_MAX + 1) :
    ∀ (i : Nat), i ≤ mask.length → ∀ (cpuset : List Nat),
      ∃ cpuset', lowerWords mask mask.length size i cpuset = .done cpuset' ∧
        pinWords mask (mask.length - 1) size i cpuset = .returned cpuset' := by
  intro i
  induction i with
  | zero => intro _ cpuset; exact ⟨cpuset, rfl, rfl⟩
  | succ i ih =>
    intro hi cpuset
    have hlt : i < mask.length := hi
    unfold lowerWords pinWords
    rw [List.getElem?_eq_getElem hlt]
    simp only
    rw [lowerBits_eq_pinBits mask[i] mask.length i size (by unfold INT_MAX at *; omega)
      (List.range 64) cpuset (fun j hj => List.mem_range.mp hj)]
    exact ih (Nat.le_of_lt hlt) _

/-! ## Helper lemmas: what the read-back loop computes -/

theorem two_pow_and_shiftRight (w j : Nat) :
    (2 ^ j &&& w) >>> j = if w.testBit j = true then 1 else 0 := by
  apply Nat.eq_of_testBit_eq
  intro k
  rw [Nat.testBit_shiftRight, Nat.testBit_and, Nat.testBit_two_pow]
  by_cases hk : k = 0
  · subst hk
    by_cases hw : w.testBit j <;> simp [hw]
  · have hjk : ¬ (j = j + k) := by omega
    have h1k : Nat.testBit 1 k = false := by
      cases hb : Nat.testBit 1 k with
      | false => rfl
      | true => exact absurd (Nat.testBit_one_eq_true_iff_self_eq_zero.mp hb) hk
    by_cases hw : w.testBit j <;> simp [hw, hjk, h1k]

theorem raise_extracted_bit (b j : Nat) (hj : j < 8) :
    ((((1 <<< j) % 256) &&& b) >>> j) % 256 = if b.testBit j = true then 1 else 0 := by
  have h1 : (1 <<< j) % 256 = 2 ^ j := by
    rw [Nat.one_shiftLeft]
    apply Nat.mod_eq_of_lt
    calc 2 ^ j < 2 ^ 8 := Nat.pow_lt_pow_right (by norm_num) hj
      _ = 256 := by norm_num
  rw [h1, two_pow_and_shiftRight]
  by_cases hb : b.testBit j = true <;> simp [hb]

theorem shift_insert_bits (w m : Nat) (e : Bool) (hw : w < 2 ^ m) (hm : m + 1 ≤ 64) :
    ((w <<< 1) % 2 ^ 64 ||| (if e = true then 1 else 0)) < 2 ^ (m + 1) ∧
    ((w <<< 1) % 2 ^ 64 ||| (if e = true then 1 else 0)).testBit 0 = e ∧
    ∀ t, ((w <<< 1) % 2 ^ 64 ||| (if e = true then 1 else 0)).testBit (t + 1) = w.testBit t := by
  have h2w : w <<< 1 < 2 ^ (m + 1) := by
    rw [Nat.shiftLeft_eq, Nat.pow_succ]
    omega
  have hle : (2 : Nat) ^ (m + 1) ≤ 2 ^ 64 := Nat.pow_le_pow_right (by norm_num) hm
  have hmod : (w <<< 1) % 2 ^ 64 = w <<< 1 := Nat.mod_eq_of_lt (by omega)
  rw [hmod]
  have he : (if e = true then 1 else 0 : Nat) < 2 ^ (m + 1) := by
    have : 1 < 2 ^ (m + 1) := Nat.one_lt_two_pow (by omega)
    split <;> omega
  refine ⟨Nat.or_lt_two_pow h2w he, ?_, ?_⟩
  · rw [Nat.testBit_or, Nat.testBit_shiftLeft]
    cases e <;> simp
  · intro t
    rw [Nat.testBit_or, Nat.testBit_shiftLeft]
    have h1 : Nat.testBit 1 (t + 1) = false := by
      cases hb : Nat.testBit 1 (t + 1) with
      | false => rfl
      | true => exact absurd (Nat.testBit_one_eq_true_iff_self_eq_zero.mp hb) (by omega)
    cases e <;> simp [h1]

theorem raiseBits_spec (b W i : Nat) (hi : i < 8 * W) (hW : W < 2 ^ 60) :
    ∀ (js out : List Nat) (m : Nat), (∀ j ∈ js, j < 8) → out.length = W →
      m + js.length ≤ 64 → out.getD (W - (i / 8 + 1)) 0 < 2 ^ m →
      ∃ out', raiseBits b W i js out = .returned out' ∧ out'.length = W ∧
        (∀ q, q ≠ W - (i / 8 + 1) → out'.getD q 0 = out.getD q 0) ∧
        out'.getD (W - (i / 8 + 1)) 0 < 2 ^ (m + js.length) ∧
        (∀ t, (out'.getD (W - (i / 8 + 1)) 0).testBit (t + js.length)
            = (out.getD (W - (i / 8 + 1)) 0).testBit t) ∧
        (∀ p, p < js.length →
          (out'.getD (W - (i / 8 + 1)) 0).testBit (js.length - 1 - p)
            = b.testBit (js.getD p 0)) := by
  intro js
  induction js with
  | nil =>
    intro out m _ hlen _ hw
    refine ⟨out, rfl, hlen, fun _ _ => rfl, by simpa using hw, fun t => by simp, ?_⟩
    intro p hp
    simp at hp
  | cons j js ih =>
    intro out m hjs hlen hm hw
    have hj : j < 8 := hjs j (List.mem_cons_self _ _)
    have hjs' : ∀ x ∈ js, x < 8 := fun x hx => hjs x (List.mem_cons_of_mem _ hx)
    have hidx : (W + 2 ^ 64 - ((i + 8) % 2 ^ 64) / 8) % 2 ^ 64 = W - (i / 8 + 1) := by omega
    have hlt : W - (i / 8 + 1) < out.length := by omega
    have hget : out.getD (W - (i / 8 + 1)) 0 = out[W - (i / 8 + 1)] := by
      simp [List.getElem?_eq_getElem hlt]
    rw [hget] at hw
    simp only [List.length_cons] at hm
    obtain ⟨h1, h2, h3⟩ := shift_insert_bits out[W - (i / 8 + 1)] m (b.testBit j) hw (by omega)
    have hset : (out.set (W - (i / 8 + 1))
        ((out[W - (i / 8 + 1)] <<< 1) % 2 ^ 64 ||| (if b.testBit j = true then 1 else 0))).getD
          (W - (i / 8 + 1)) 0
        = (out[W - (i / 8 + 1)] <<< 1) % 2 ^ 64 ||| (if b.testBit j = true then 1 else 0) := by
      simp [List.getElem?_set, hlt]
    obtain ⟨out', hrun, hlen', hother, hbound, hhigh, hlow⟩ :=
      ih (out.set (W - (i / 8 + 1))
          ((out[W - (i / 8 + 1)] <<< 1) % 2 ^ 64 ||| (if b.testBit j = true then 1 else 0)))
        (m + 1) hjs' (by rw [List.length_set]; exact hlen) (by omega)
        (by rw [hset]; exact h1)
    unfold raiseBits
    simp only [hidx, List.getElem?_eq_getElem hlt, raise_extracted_bit b j hj]
    refine ⟨out', hrun, hlen', ?_, ?_, ?_, ?_⟩
    · intro q hq
      rw [hother q hq]
      simp [List.getElem?_set, Ne.symm hq]
    · rw [List.length_cons, show m + (js.length + 1) = m + 1 + js.length by omega]
      exact hbound
    · intro t
      rw [List.length_cons, show t + (js.length + 1) = (t + 1) + js.length by omega,
        hhigh (t + 1), hset, h3 t, hget]
    · intro p hp
      rw [List.length_cons] at hp
      cases p with
      | zero =>
        rw [List.length_cons, show js.length + 1 - 1 - 0 = 0 + js.length by omega,
          hhigh 0, hset, h2]
        rfl
      | succ p =>
        rw [List.length_cons, show js.length + 1 - 1 - (p + 1) = js.length - 1 - p by omega,
          hlow p (by omega)]
        rfl

theorem getD_range_eight (p : Nat) (hp : p < 8) : (List.range 8).getD p 0 = p := by
  simp [List.getElem?_range hp]

theorem raiseBytes_spec (buf : List Nat) (W : Nat) (hW : W < 2 ^ 58)
    (hbuf : buf.length = 8 * W) :
    ∀ (c i : Nat) (out : List Nat), i + c = 8 * W → out.length = W →
      (∀ k, k < W → out.getD (W - 1 - k) 0 < 2 ^ (min 64 (8 * i - 64 * k)) ∧
        ∀ j, j < min 64 (8 * i - 64 * k) →
          (out.getD (W - 1 - k) 0).testBit (min 64 (8 * i - 64 * k) - 1 - j)
            = (buf.getD (8 * k + j / 8) 0).testBit (j % 8)) →
      ∃ out', raiseBytes buf W (List.range' i c) out = .returned out' ∧ out'.length = W ∧
        ∀ k, k < W → out'.getD (W - 1 - k) 0 < 2 ^ 64 ∧
          ∀ j, j < 64 → (out'.getD (W - 1 - k) 0).testBit (63 - j)
            = (buf.getD (8 * k + j / 8) 0).testBit (j % 8) := by
  intro c
  induction c with
  | zero =>
    intro i out hic hlen hinv
    refine ⟨out, rfl, hlen, ?_⟩
    intro k hk
    obtain ⟨hb, hbits⟩ := hinv k hk
    have hmin : min 64 (8 * i - 64 * k) = 64 := by omega
    rw [hmin] at hb hbits
    exact ⟨hb, fun j hj => by simpa using hbits j hj⟩
  | succ c ih =>
    intro i out hic hlen hinv
    have hi : i < 8 * W := by omega
    have hibuf : i < buf.length := by omega
    have hgetbuf : buf.getD i 0 = buf[i] := by simp [List.getElem?_eq_getElem hibuf]
    have hidx : W - 1 - i / 8 = W - (i / 8 + 1) := by omega
    have hk0 : i / 8 < W := by omega
    obtain ⟨hb0, hbits0⟩ := hinv (i / 8) hk0
    have hm0 : min 64 (8 * i - 64 * (i / 8)) = 8 * (i % 8) := by omega
    rw [hm0, hidx] at hb0 hbits0
    obtain ⟨out1, hrun1, hlen1, hother, hbound, hhigh, hlow⟩ :=
      raiseBits_spec buf[i] W i hi (by omega) (List.range 8) out (8 * (i % 8))
        (fun j hj => List.mem_range.mp hj) hlen (by rw [List.length_range]; omega) hb0
    rw [List.length_range] at hbound hhigh hlow
    obtain ⟨out', hrun, hlen', hfinal⟩ := ih (i + 1) out1 (by omega) hlen1 (by
      intro k hk
      by_cases hkk : k = i / 8
      · subst hkk
        have hm1 : min 64 (8 * (i + 1) - 64 * (i / 8)) = 8 * (i % 8) + 8 := by omega
        rw [hm1, hidx]
        refine ⟨hbound, ?_⟩
        intro j hj
        by_cases hjm : j < 8 * (i % 8)
        · rw [show 8 * (i % 8) + 8 - 1 - j = (8 * (i % 8) - 1 - j) + 8 by omega,
            hhigh (8 * (i % 8) - 1 - j)]
          exact hbits0 j hjm
        · have hp : j - 8 * (i % 8) < 8 := by omega
          rw [show 8 * (i % 8) + 8 - 1 - j = 8 - 1 - (j - 8 * (i % 8)) by omega,
            hlow (j - 8 * (i % 8)) hp, getD_range_eight _ hp,
            show 8 * (i / 8) + j / 8 = i by omega, hgetbuf,
            show j % 8 = j - 8 * (i % 8) by omega]
      · obtain ⟨hb, hbits⟩ := hinv k hk
        have hm : min 64 (8 * (i + 1) - 64 * k) = min 64 (8 * i - 64 * k) := by omega
        have hq : W - 1 - k ≠ W - (i / 8 + 1) := by omega
        rw [hm, hother _ hq]
        exact ⟨hb, hbits⟩)
    refine ⟨out', ?_, hlen', hfinal⟩
    rw [List.range'_succ]
    unfold raiseBytes
    simp only [List.getElem?_eq_getElem hibuf, hrun1]
    exact hrun

theorem raise_spec (buf : List Nat) (W : Nat) (hW : W < 2 ^ 58) (hbuf : buf.length = 8 * W) :
    ∃ words, raise buf W (numOfBytes W) = .returned words ∧ words.length = W ∧
      ∀ k, k < W → words.getD (W - 1 - k) 0 < 2 ^ 64 ∧
        ∀ j, j < 64 → (words.getD (W - 1 - k) 0).testBit (63 - j)
          = (buf.getD (8 * k + j / 8) 0).testBit (j % 8) := by
  have hnb : numOfBytes W = 8 * W := by unfold numOfBytes; omega
  unfold raise
  rw [hnb, List.range_eq_range']
  apply raiseBytes_spec buf W hW hbuf (8 * W) 0 (List.replicate W 0) (by omega) (by simp)
  intro k hk
  have hmin : min 64 (8 * 0 - 64 * k) = 0 := by omega
  rw [hmin]
  refine ⟨by simp [List.getElem?_replicate, show W - 1 - k < W by omega], ?_⟩
  intro j hj
  omega

/-! ## Helper lemmas: the word index of the read-back loop -/

theorem ceil_byte_index (i : Nat) : ⌈((i : ℚ) + 1) / 8⌉ = ((i / 8 + 1 : Nat) : Int) := by
  generalize hq : i / 8 = q
  have h1 : 8 * q ≤ i := by omega
  have h2 : i + 1 ≤ 8 * q + 8 := by omega
  have h1' : (8 : ℚ) * (q : ℚ) ≤ (i : ℚ) := by exact_mod_cast h1
  have h2' : (i : ℚ) + 1 ≤ 8 * (q : ℚ) + 8 := by exact_mod_cast h2
  rw [Int.ceil_eq_iff]
  push_cast
  constructor
  · rw [lt_div_iff₀ (by norm_num)]; linarith
  · rw [div_le_iff₀ (by norm_num)]; linarith

theorem currIndex_eq (W i : Nat) (h64 : 8 * W < 2 ^ 64) (hi : i < 8 * W) :
    currIndexOfComparisonMask W i = W - (i / 8 + 1) ∧ i / 8 + 1 ≤ W := by
  unfold currIndexOfComparisonMask
  omega

theorem raiseBytes_no_write_fault (realcpuset : List Nat) (W : Nat) (hW : W < 2 ^ 60) :
    ∀ (is out : List Nat), (∀ i ∈ is, i < 8 * W) → out.length = W →
      raiseBytes realcpuset W is out ≠ .fault .writeOutOfBounds := by
  intro is
  induction is with
  | nil => intro out _ _ h; exact Run.noConfusion h
  | cons i is ih =>
    intro out his hlen
    unfold raiseBytes
    split
    · intro h
      exact Fault.noConfusion (Run.fault.inj h)
    · obtain ⟨out1, hrun1, hlen1⟩ :=
        raiseBits_returns _ W i (his i (List.mem_cons_self _ _)) hW (List.range 8) out hlen
      rw [hrun1]
      exact ih out1 (fun x hx => his x (List.mem_cons_of_mem _ hx)) hlen1

/-! ## Lower sets exactly the requested CPUs -/

/-- C1: for every supplied mask of length `L ≥ 1` with `64 * L - 1 ≤ INT_MAX`, the lowering
loop of `SetAffinityUnsafe` ends normally and a CPU number `r` is set in the native set if
and only if `r < 64 * L` and bit `r % 64` of `suppliedAffinityMask[L - 1 - r / 64]` is one.
In particular a mask with exactly portable bit `k` set lowers to exactly real CPU `k`. -/
theorem lower_sets_exactly_requested_cpus (mask : List Nat) (hL : 1 ≤ mask.length)
    (hmax : 64 * mask.length - 1 ≤ INT_MAX) :
    ∃ cpuset, lower mask mask.length = .done cpuset ∧
      (∀ r, CPU_ISSET_S r (CPU_ALLOC_SIZE ((mask.length * 64) % 2 ^ 64)) cpuset = true ↔
        (r < 64 * mask.length ∧
          (mask.getD (mask.length - 1 - r / 64) 0).testBit (r % 64) = true)) ∧
      (∀ k, k < 64 * mask.length →
        (∀ i, mask.getD i 0 = if i = mask.length - 1 - k / 64 then 2 ^ (k % 64) else 0) →
        ∀ r, CPU_ISSET_S r (CPU_ALLOC_SIZE ((mask.length * 64) % 2 ^ 64)) cpuset = true ↔
          r = k) := by
  have hmax' : 64 * mask.length ≤ INT_MAX + 1 := by omega
  obtain ⟨cpuset, hrun, _, hbits⟩ := lower_done mask hmax'
  rw [CPU_ALLOC_SIZE_mask mask.length hmax']
  refine ⟨cpuset, hrun, hbits, ?_⟩
  intro k hk hmask r
  rw [hbits r, hmask]
  constructor
  · rintro ⟨hr, hb⟩
    by_cases hidx : mask.length - 1 - r / 64 = mask.length - 1 - k / 64
    · rw [if_pos hidx, Nat.testBit_two_pow] at hb
      have hm : k % 64 = r % 64 := by simpa using hb
      omega
    · rw [if_neg hidx] at hb
      simp at hb
  · rintro rfl
    refine ⟨hk, ?_⟩
    rw [if_pos rfl, Nat.testBit_two_pow_self]

/-- C1, run on the two-word mask with portable bits 0 and 127 set. -/
theorem lower_sets_exactly_requested_cpus_witness :
    ∃ cpuset, lower [2 ^ 63, 1] [2 ^ 63, 1].length = .done cpuset ∧
      (∀ r, CPU_ISSET_S r (CPU_ALLOC_SIZE (([2 ^ 63, 1].length * 64) % 2 ^ 64)) cpuset = true ↔
        (r < 64 * [2 ^ 63, 1].length ∧
          (([2 ^ 63, 1] : List Nat).getD ([2 ^ 63, 1].length - 1 - r / 64) 0).testBit (r % 64)
            = true)) ∧
      (∀ k, k < 64 * [2 ^ 63, 1].length →
        (∀ i, ([2 ^ 63, 1] : List Nat).getD i 0
            = if i = [2 ^ 63, 1].length - 1 - k / 64 then 2 ^ (k % 64) else 0) →
        ∀ r, CPU_ISSET_S r (CPU_ALLOC_SIZE (([2 ^ 63, 1].length * 64) % 2 ^ 64)) cpuset = true ↔
          r = k) :=
  lower_sets_exactly_requested_cpus [2 ^ 63, 1] (by decide) (by decide)

/-! ## The read-back loop reverses the bits of every word -/

set_option maxRecDepth 100000 in
/-- C2: with 4 real CPUs the one-word portable mask `0b1010` (bits 1 and 3, both below 4,
as many words as the read-back produces) lowers to the native set with CPUs 1 and 3, and
raising that set gives the word `0x5000000000000000` (bits 62 and 60), not `0b1010`. -/
theorem raise_lower_reverses_word :
    numOfLongs 4 = [0b1010].length ∧
    lower [0b1010] 1 = .done [10, 0, 0, 0, 0, 0, 0, 0] ∧
    raise [10, 0, 0, 0, 0, 0, 0, 0] (numOfLongs 4) (numOfBytes (numOfLongs 4))
      = .returned [0x5000000000000000] ∧
    raise [10, 0, 0, 0, 0, 0, 0, 0] (numOfLongs 4) (numOfBytes (numOfLongs 4))
      ≠ .returned [0b1010] := by
  decide

set_option maxRecDepth 100000 in
/-- C3: on a machine with 4 CPUs whose kernel applies and reports exactly the requested
CPUs, `SetAffinityUnsafe` with the one-word mask `0b1010` returns `Success` with length 1,
but the applied mask is `[0x5000000000000000]`, not `[0b1010]`. -/
theorem SetAffinity_four_cpus_returns_reversed_mask :
    SetAffinityLinux.SetAffinityUnsafe (machine 4 4) [15] (some [0b1010]) 1
        (some 0) (some none) (some 0)
      = .returned ⟨SetAffinityLinux.Success, some 1234, some (some [0x5000000000000000]),
          some 1, [10, 0, 0, 0, 0, 0, 0, 0],
          [.alloc 8 true, .sched_setaffinity [10, 0, 0, 0, 0, 0, 0, 0] true, .alloc 8 true,
            .sched_getaffinity 8 true, .alloc 8 true]⟩ ∧
    SetAffinityLinux.Success = 0 := by
  decide

set_option maxRecDepth 100000 in
/-- C4: on a machine with 4 CPUs whose kernel accepts the reset set and reports it back
unchanged, `ResetAffinityUnsafe` leaves CPUs 0..3 in the live affinity and returns
`Success`; `GetAffinityUnsafe` run next returns `Success` with the one-word mask
`0xF000000000000000`: portable bits 60..63 are set and portable bits 0..3 are clear. -/
theorem Reset_then_Get_four_cpus_returns_high_bits :
    (ResetAffinityLinux.ResetAffinityUnsafe (machine 4 4) [5] (some 0) (some none) (some 0)).code?
      = some 0 ∧
    (∃ r, ResetAffinityLinux.ResetAffinityUnsafe (machine 4 4) [5] (some 0) (some none) (some 0)
        = .returned r ∧ r.affinity = [15, 0, 0, 0, 0, 0, 0, 0]) ∧
    GetAffinityLinux.GetAffinityUnsafe (machine 4 4) [15, 0, 0, 0, 0, 0, 0, 0]
        (some 0) (some none) (some 0)
      = .returned ⟨0, some 1234, some (some [0xF000000000000000]), some 1,
          [15, 0, 0, 0, 0, 0, 0, 0],
          [.alloc 8 true, .sched_getaffinity 8 true, .alloc 8 true]⟩ ∧
    Nat.testBit 0xF000000000000000 0 = false ∧ Nat.testBit 0xF000000000000000 63 = true := by
  refine ⟨by decide, ⟨_, rfl, by decide⟩, by decide, by decide, by decide⟩

set_option maxRecDepth 100000 in
/-- C5: on a machine with 4 CPUs whose kernel keeps only CPUs 0..3 of a request,
`SetAffinityUnsafe` with the one-word mask `0xFFFFFFFFFFFFFFFF` returns `Success` and the
read-back holds only CPUs 0..3, but the applied mask is `[0xF000000000000000]`: it has
portable bits 60..63 set, all at positions `≥ 4`, and is not `[0b1111]`. -/
theorem SetAffinity_all_ones_returns_high_bits :
    SetAffinityLinux.SetAffinityUnsafe (machine 4 4) [15] (some [0xFFFFFFFFFFFFFFFF]) 1
        (some 0) (some none) (some 0)
      = .returned ⟨0, some 1234, some (some [0xF000000000000000]), some 1,
          [15, 0, 0, 0, 0, 0, 0, 0],
          [.alloc 8 true, .sched_setaffinity [255, 255, 255, 255, 255, 255, 255, 255] true,
            .alloc 8 true, .sched_getaffinity 8 true, .alloc 8 true]⟩ ∧
    Nat.testBit 0xF000000000000000 63 = true ∧ (0xF000000000000000 : Nat) ≠ 0b1111 := by
  decide

/-! ## The word count of the read-back -/

set_option maxRecDepth 100000 in
/-- C7: with 64 real CPUs the native set has `CPU_ALLOC_SIZE 64 = 8` bytes while the
read-back loop visits `numOfBytes = 16` byte indices; byte index 8 is outside the set, and
the read-back of `GetAffinityUnsafe`, `ResetAffinityUnsafe` and `SetAffinityUnsafe` runs
into an out-of-bounds read. -/
theorem raise_reads_past_native_set_at_64_cpus :
    CPU_ALLOC_SIZE 64 = 8 ∧ numOfBytes (numOfLongs 64) = 16 ∧
    (readBack [255, 255, 255, 255, 255, 255, 255, 255] (CPU_ALLOC_SIZE 64))[8]? = none ∧
    GetAffinityLinux.GetAffinityUnsafe (machine 64 64) [255, 255, 255, 255, 255, 255, 255, 255]
        (some 0) (some none) (some 0) = .fault .readOutOfBounds ∧
    ResetAffinityLinux.ResetAffinityUnsafe (machine 64 64) [1] (some 0) (some none) (some 0)
      = .fault .readOutOfBounds ∧
    SetAffinityLinux.SetAffinityUnsafe (machine 64 64) [1] (some [0b1010]) 1
        (some 0) (some none) (some 0) = .fault .readOutOfBounds := by
  decide

/-- C8: with 64 real CPUs the word count computed by the three read-back paths is
`(64 + 64) / 64 = 2`, while `ceil(64 / 64) = 1`; with 128 real CPUs it is 3, not 2. -/
theorem numOfLongs_exceeds_ceil_at_multiples_of_64 :
    numOfLongs 64 = 2 ∧ (64 + 63) / 64 = 1 ∧ numOfLongs 128 = 3 ∧ (128 + 63) / 64 = 2 ∧
    GetAffinityLinux.toU64 (GetAffinityLinux.numOfLongs 64) = 2 ∧
    ResetAffinityLinux.toU64 (ResetAffinityLinux.numOfLongs 64) = 2 := by
  decide

/-! ## Zero-length masks -/

/-- C9: for every platform, live affinity, mask buffer and prior slot contents, with
`maskLength = 0` and non-null pointers `SetAffinityUnsafe` returns
`InvalidArgInitialization = -1` and `PinThreadLinux` returns `-1`; the trace of either call
is empty (no allocation, no `sched_setaffinity`) and the live affinity is unchanged. -/
theorem zero_length_mask_rejected (env : Env) (affinity mask : List Nat) (tid : Int)
    (applied : Option (List Nat)) (len : Nat) :
    SetAffinityLinux.SetAffinityUnsafe env affinity (some mask) 0 (some tid) (some applied)
        (some len)
      = .returned ⟨-1, some tid, some applied, some len, affinity, []⟩ ∧
    SetAffinityLinux.InvalidArgInitialization = -1 ∧
    PinThreadLinux env affinity (some mask) 0 (some tid)
      = .returned ⟨-1, env.gettid, affinity, []⟩ := by
  refine ⟨?_, rfl, ?_⟩
  · simp [SetAffinityLinux.SetAffinityUnsafe, SetAffinityLinux.InvalidArgInitialization]
  · simp [PinThreadLinux]

/-! ## SetAffinityUnsafe does not compare the read-back with the request -/

set_option maxRecDepth 100000 in
/-- C6, as stated, fails: on a machine with 4 CPUs whose kernel accepts the request but
keeps only CPUs 0 and 1, `SetAffinityUnsafe` with the mask `0b1010` (CPUs 1 and 3) returns
`Success` although CPU 3, below the real CPU count, is requested and absent from the
affinity read back. -/
theorem SetAffinity_success_despite_mismatch :
    SetAffinityLinux.SetAffinityUnsafe (machine 4 2) [15] (some [0b1010]) 1
        (some 0) (some none) (some 0)
      = .returned ⟨SetAffinityLinux.Success, some 1234, some (some [0x4000000000000000]),
          some 1, [2, 0, 0, 0, 0, 0, 0, 0],
          [.alloc 8 true, .sched_setaffinity [10, 0, 0, 0, 0, 0, 0, 0] true, .alloc 8 true,
            .sched_getaffinity 8 true, .alloc 8 true]⟩ ∧
    Nat.testBit 0b1010 3 = true ∧
    CPU_ISSET_S 3 8 (readBack [2, 0, 0, 0, 0, 0, 0, 0] 8) = false := by
  decide

/-- C6, amended: `SetAffinityUnsafe` on Linux compares nothing. For every platform with a
real CPU count `n ≥ 1` that is not a multiple of 64, every request of length `L ≥ 1` that
lowers to a native set `cpuset` and every affinity `affinity'` the kernel stores for it,
when the allocations, the apply and the read-back query succeed the call returns `Success`,
the applied-mask slot holds the raised read-back and the length slot holds its word count,
whether or not `affinity'` agrees with the request. -/
theorem SetAffinity_success_whatever_is_read_back (env : Env)
    (affinity mask cpuset affinity' : List Nat) (tid : Int) (applied : Option (List Nat))
    (len n : Nat)
    (hL : 1 ≤ mask.length)
    (hn : env.nprocs = (n : Int)) (hn64 : n % 64 ≠ 0) (hnmax : n < 2 ^ 63)
    (halloc : ∀ k, env.allocOk k = true)
    (hlow : lower mask mask.length = .done cpuset)
    (happly : env.sched_setaffinity affinity cpuset = some affinity')
    (hquery : env.sched_getaffinity affinity' (CPU_ALLOC_SIZE n) = true) :
    ∃ words,
      raise (readBack affinity' (CPU_ALLOC_SIZE n)) (numOfLongs n) (numOfBytes (numOfLongs n))
        = .returned words ∧
      words.length = numOfLongs n ∧
      SetAffinityLinux.SetAffinityUnsafe env affinity (some mask) mask.length (some tid)
          (some applied) (some len)
        = .returned ⟨SetAffinityLinux.Success, some env.gettid, some (some words),
            some (numOfLongs n), affinity',
            [.alloc (CPU_ALLOC_SIZE ((mask.length * 64) % 2 ^ 64)) true,
              .sched_setaffinity cpuset true, .alloc (CPU_ALLOC_SIZE n) true,
              .sched_getaffinity (CPU_ALLOC_SIZE n) true, .alloc (numOfLongs n * 8) true]⟩ := by
  obtain ⟨words, hraise, hlen⟩ :=
    raise_returns (readBack affinity' (CPU_ALLOC_SIZE n)) n hnmax
      (by rw [length_readBack, numOfBytes_eq_CPU_ALLOC_SIZE n hnmax hn64])
  refine ⟨words, hraise, hlen, ?_⟩
  have hne : mask.length ≠ 0 := by omega
  unfold lower at hlow
  simp only at hlow
  have h264 : (2 : Nat) ^ 64 = 18446744073709551616 := by norm_num
  rw [h264] at hlow
  have hnotneg : ¬ ((n : Int) < 0) := by omega
  simp [SetAffinityLinux.SetAffinityUnsafe, SetAffinityLinux.readBackPhase, hne, halloc, hlow,
    happly, hn, hnotneg, hquery, hraise]

set_option maxRecDepth 100000 in
/-- C6, amended, run on a machine with 4 CPUs whose kernel keeps only CPUs 0 and 1. -/
theorem SetAffinity_success_whatever_is_read_back_witness :
    ∃ words,
      raise (readBack [2, 0, 0, 0, 0, 0, 0, 0] (CPU_ALLOC_SIZE 4)) (numOfLongs 4)
          (numOfBytes (numOfLongs 4)) = .returned words ∧
      words.length = numOfLongs 4 ∧
      SetAffinityLinux.SetAffinityUnsafe (machine 4 2) [15] (some [0b1010]) [0b1010].length
          (some 0) (some none) (some 0)
        = .returned ⟨SetAffinityLinux.Success, some (machine 4 2).gettid, some (some words),
            some (numOfLongs 4), [2, 0, 0, 0, 0, 0, 0, 0],
            [.alloc (CPU_ALLOC_SIZE (([0b1010].length * 64) % 2 ^ 64)) true,
              .sched_setaffinity [10, 0, 0, 0, 0, 0, 0, 0] true, .alloc (CPU_ALLOC_SIZE 4) true,
              .sched_getaffinity (CPU_ALLOC_SIZE 4) true, .alloc (numOfLongs 4 * 8) true]⟩ :=
  SetAffinity_success_whatever_is_read_back (machine 4 2) [15] [0b1010]
    [10, 0, 0, 0, 0, 0, 0, 0] [2, 0, 0, 0, 0, 0, 0, 0] 0 none 0 4
    (by decide) rfl (by decide) (by decide) (fun _ => rfl)
    (by decide) (by decide) rfl

/-! ## Output slots of SetAffinityUnsafe on failure -/

/-- C10, as stated, fails: a call with a zero-length mask and the values 7, a non-null
mask and 9 in the three output slots returns the failure code `InvalidArgInitialization`
and leaves 7, the non-null mask and 9 in the slots. -/
theorem SetAffinity_zero_length_keeps_prior_outputs :
    SetAffinityLinux.SetAffinityUnsafe (machine 4 4) [15] (some []) 0
        (some 7) (some (some [9])) (some 9)
      = .returned ⟨SetAffinityLinux.InvalidArgInitialization, some 7, some (some [9]), some 9,
          [15], []⟩ ∧
    SetAffinityLinux.InvalidArgInitialization ≠ SetAffinityLinux.Success := by
  decide

/-- C10, amended: for every call of `SetAffinityUnsafe` with non-null output pointers that
returns a failure code, either the code is `InvalidArgInitialization` (null or zero-length
mask) and the three output slots hold what they held before the call, or the code is
another failure code and at return the applied-mask pointer is `NULL`, the applied-mask
length is 0 and the thread-id slot holds the id of the calling thread. -/
theorem SetAffinity_failure_outputs (env : Env) (affinity : List Nat)
    (suppliedAffinityMask : Option (List Nat)) (maskLength : Nat) (tid : Int)
    (applied : Option (List Nat)) (len : Nat) (r : Ret)
    (hrun : SetAffinityLinux.SetAffinityUnsafe env affinity suppliedAffinityMask maskLength
      (some tid) (some applied) (some len) = .returned r)
    (hfail : r.code ≠ SetAffinityLinux.Success) :
    (r.code = SetAffinityLinux.InvalidArgInitialization ∧
        (suppliedAffinityMask = none ∨ maskLength = 0) ∧
        r.tid = some tid ∧ r.appliedAffinityMask = some applied ∧
        r.appliedMaskLength = some len) ∨
    (r.code ≠ SetAffinityLinux.InvalidArgInitialization ∧
        r.tid = some env.gettid ∧ r.appliedAffinityMask = some none ∧
        r.appliedMaskLength = some 0) := by
  cases suppliedAffinityMask with
  | none =>
    simp only [SetAffinityLinux.SetAffinityUnsafe, Run.returned.injEq] at hrun
    subst hrun
    left
    simp
  | some mask =>
    simp only [SetAffinityLinux.SetAffinityUnsafe, SetAffinityLinux.readBackPhase] at hrun
    repeat' split at hrun
    all_goals first
      | exact Run.noConfusion hrun
      | (simp only [Run.returned.injEq] at hrun
         subst hrun
         first
           | (left; simp_all; done)
           | (right; simp [SetAffinityLinux.InvalidArgInitialization,
               SetAffinityLinux.RealBitPositionTooLarge, SetAffinityLinux.FailedToSetAffinity,
               SetAffinityLinux.FailedToGetRealNumCpus, SetAffinityLinux.FailedToAllocRealCpuSet,
               SetAffinityLinux.FailedToGetAffinity,
               SetAffinityLinux.FailedToAllocComparisonMask]))

set_option maxRecDepth 100000 in
/-- C10, amended, run on a machine with 4 CPUs whose kernel rejects every request: the
call fails with `FailedToSetAffinity`, the applied-mask pointer is `NULL`, the length is 0
and the thread-id slot holds the thread id 1234. -/
theorem SetAffinity_failure_outputs_witness :
    ((-4 : Int) = SetAffinityLinux.InvalidArgInitialization ∧
        ((some [0b1010] : Option (List Nat)) = none ∨ 1 = 0) ∧
        (some 1234 : Option Int) = some 7 ∧
        (some none : Option (Option (List Nat))) = some (some [9]) ∧
        (some 0 : Option Nat) = some 9) ∨
    ((-4 : Int) ≠ SetAffinityLinux.InvalidArgInitialization ∧
        (some 1234 : Option Int) = some (⟨1234, 4, fun _ => true, fun _ _ => none,
          fun _ _ => true⟩ : Env).gettid ∧
        (some none : Option (Option (List Nat))) = some none ∧
        (some 0 : Option Nat) = some 0) :=
  SetAffinity_failure_outputs ⟨1234, 4, fun _ => true, fun _ _ => none, fun _ _ => true⟩
    [15] (some [0b1010]) 1 7 (some [9]) 9
    ⟨-4, some 1234, some none, some 0, [15],
      [.alloc 8 true, .sched_setaffinity [10, 0, 0, 0, 0, 0, 0, 0] false]⟩
    (by decide) (by decide)

/-! ## Output slots of GetAffinityUnsafe and ResetAffinityUnsafe -/

/-- C11: for every call of `GetAffinityUnsafe` or `ResetAffinityUnsafe` with non-null output
pointers that returns, whatever the slots held before: if the code is a failure code the
thread-id slot is 0, the applied-mask pointer is `NULL` and the applied-mask length is 0;
if the code is `Success` the thread-id slot holds the id of the calling thread, the
applied-mask pointer is non-null and the length is the number of words written. -/
theorem Get_Reset_outputs (env : Env) (affinity : List Nat) (tid : Int)
    (applied : Option (List Nat)) (len : Nat) (r : Ret)
    (hrun : GetAffinityLinux.GetAffinityUnsafe env affinity (some tid) (some applied) (some len)
        = .returned r ∨
      ResetAffinityLinux.ResetAffinityUnsafe env affinity (some tid) (some applied) (some len)
        = .returned r) :
    GetAffinityLinux.Success = 0 ∧ ResetAffinityLinux.Success = 0 ∧
    (r.code ≠ 0 →
      r.tid = some 0 ∧ r.appliedAffinityMask = some none ∧ r.appliedMaskLength = some 0) ∧
    (r.code = 0 →
      r.tid = some env.gettid ∧
      ∃ words, r.appliedAffinityMask = some (some words) ∧
        r.appliedMaskLength = some words.length) := by
  refine ⟨rfl, rfl, ?_⟩
  rcases hrun with hrun | hrun
  · simp only [GetAffinityLinux.GetAffinityUnsafe] at hrun
    repeat' split at hrun
    all_goals first
      | exact Run.noConfusion hrun
      | (rename_i words hraise
         rw [Get_raise_eq] at hraise
         have hlen := raise_length _ _ _ _ hraise
         simp only [Run.returned.injEq] at hrun
         subst hrun
         simp [GetAffinityLinux.Success, hlen])
      | (simp only [Run.returned.injEq] at hrun
         subst hrun
         simp [GetAffinityLinux.FailedToGetRealNumCpus, GetAffinityLinux.TooManyCpus,
           GetAffinityLinux.FailedToAllocOutputCpuSet, GetAffinityLinux.FailedToGetAffinity,
           GetAffinityLinux.FailedToAllocOutputMask])
  · simp only [ResetAffinityLinux.ResetAffinityUnsafe, ResetAffinityLinux.readBackPhase] at hrun
    repeat' split at hrun
    all_goals first
      | exact Run.noConfusion hrun
      | (rename_i words hraise
         rw [Reset_raise_eq] at hraise
         have hlen := raise_length _ _ _ _ hraise
         simp only [Run.returned.injEq] at hrun
         subst hrun
         simp [ResetAffinityLinux.Success, hlen])
      | (simp only [Run.returned.injEq] at hrun
         subst hrun
         simp [ResetAffinityLinux.FailedToGetRealNumCpus, ResetAffinityLinux.TooManyCpus,
           ResetAffinityLinux.FailedToAllocCpuSet, ResetAffinityLinux.FailedToSetAffinity,
           ResetAffinityLinux.FailedToAllocComparisonCpuSet,
           ResetAffinityLinux.FailedToGetAffinity,
           ResetAffinityLinux.FailedToAllocComparisonMask])

set_option maxRecDepth 100000 in
/-- C11, run on `GetAffinityUnsafe` on a machine with 4 CPUs and live affinity CPUs 0..3,
with 7, a non-null mask and 9 in the output slots before the call: the call returns
`Success`, the thread id 1234, a one-word mask and the length 1. -/
theorem Get_Reset_outputs_witness :
    GetAffinityLinux.Success = 0 ∧ ResetAffinityLinux.Success = 0 ∧
    ((0 : Int) ≠ 0 →
      (some 1234 : Option Int) = some 0 ∧
      (some (some [0xF000000000000000]) : Option (Option (List Nat))) = some none ∧
      (some 1 : Option Nat) = some 0) ∧
    ((0 : Int) = 0 →
      (some 1234 : Option Int) = some (machine 4 4).gettid ∧
      ∃ words, (some (some [0xF000000000000000]) : Option (Option (List Nat)))
          = some (some words) ∧
        (some 1 : Option Nat) = some words.length) :=
  Get_Reset_outputs (machine 4 4) [15] 7 (some [9]) 9
    ⟨0, some 1234, some (some [0xF000000000000000]), some 1, [15],
      [.alloc 8 true, .sched_getaffinity 8 true, .alloc 8 true]⟩
    (Or.inl (by decide))

/-! ## Allocation failure in SetAffinityUnsafe -/

set_option maxRecDepth 100000 in
/-- C12: on a machine with 4 CPUs where the allocation of the native set used for lowering
fails, `SetAffinityUnsafe` with the valid one-word request `0b1010` does not return
`FailedToAllocCpuSet`: the result of `CPU_ALLOC` is not checked and `CPU_ZERO_S` writes
through the null pointer. The sibling `ResetAffinityUnsafe` checks the same allocation and
returns its `FailedToAllocCpuSet` without calling `sched_setaffinity`. -/
theorem SetAffinity_unchecked_allocation :
    SetAffinityLinux.SetAffinityUnsafe (failingAlloc 0 (machine 4 4)) [15] (some [0b1010]) 1
        (some 0) (some none) (some 0) = .fault .nullDeref ∧
    (SetAffinityLinux.SetAffinityUnsafe (failingAlloc 0 (machine 4 4)) [15] (some [0b1010]) 1
        (some 0) (some none) (some 0)).code? ≠ some SetAffinityLinux.FailedToAllocCpuSet ∧
    ResetAffinityLinux.ResetAffinityUnsafe (failingAlloc 0 (machine 4 4)) [15]
        (some 0) (some none) (some 0)
      = .returned ⟨ResetAffinityLinux.FailedToAllocCpuSet, some 0, some none, some 0, [15],
          [.alloc 8 false]⟩ := by
  decide

/-! ## The Windows verify step -/

/-- C15: with the native primitive an arbitrary function of a state and a mask, the Windows
`SetAffinityUnsafe` returns `Success` only if both calls of the primitive return non-zero
and the value of the second call equals the supplied mask; and for a non-zero supplied
mask and a non-null output slot, when both calls return non-zero and the second value
differs from the supplied mask, the code is `AppliedMaskDoesNotMatch = -4` and the slot
holds the second value, which is neither zero nor the supplied mask. -/
theorem Windows_SetAffinity_verify {σ : Type} (api : σ → Nat → Nat × σ) (state : σ)
    (suppliedAffinityMask : Nat) (slot : Nat) :
    ((SetAffinityWindows.SetAffinityUnsafe api state suppliedAffinityMask (some slot)).code
        = SetAffinityWindows.Success →
      (api state suppliedAffinityMask).1 ≠ 0 ∧
      (api (api state suppliedAffinityMask).2 suppliedAffinityMask).1 ≠ 0 ∧
      (api (api state suppliedAffinityMask).2 suppliedAffinityMask).1 = suppliedAffinityMask) ∧
    (suppliedAffinityMask ≠ 0 → (api state suppliedAffinityMask).1 ≠ 0 →
      (api (api state suppliedAffinityMask).2 suppliedAffinityMask).1 ≠ 0 →
      (api (api state suppliedAffinityMask).2 suppliedAffinityMask).1 ≠ suppliedAffinityMask →
      (SetAffinityWindows.SetAffinityUnsafe api state suppliedAffinityMask (some slot)).code
          = -4 ∧
      SetAffinityWindows.AppliedMaskDoesNotMatch = -4 ∧
      (SetAffinityWindows.SetAffinityUnsafe api state suppliedAffinityMask
          (some slot)).appliedAffinityMask
        = some (api (api state suppliedAffinityMask).2 suppliedAffinityMask).1) := by
  constructor
  · intro h
    simp only [SetAffinityWindows.SetAffinityUnsafe] at h
    split at h
    · simp [SetAffinityWindows.InvalidArgInitialization, SetAffinityWindows.Success] at h
    · split at h
      · simp [SetAffinityWindows.SetThreadAffinityMaskFailed, SetAffinityWindows.Success] at h
      · split at h
        · simp [SetAffinityWindows.AppliedMaskDoesNotMatch, SetAffinityWindows.Success] at h
        · rename_i hzero hmatch
          simp only [not_or] at hzero
          exact ⟨hzero.1, hzero.2, not_not.mp hmatch⟩
  · intro hs h1 h2 h3
    have hpos : ¬ suppliedAffinityMask ≤ 0 := by omega
    simp [SetAffinityWindows.SetAffinityUnsafe, hpos, h1, h2, h3,
      SetAffinityWindows.AppliedMaskDoesNotMatch]

/-- C15, run with a primitive that returns 3 on every call and the supplied mask 5: the
code is `AppliedMaskDoesNotMatch` and the slot holds 3. -/
theorem Windows_SetAffinity_verify_witness :
    (SetAffinityWindows.SetAffinityUnsafe (fun (s : Unit) (_ : Nat) => ((3 : Nat), s)) () 5
        (some 0)).code = -4 ∧
    SetAffinityWindows.AppliedMaskDoesNotMatch = -4 ∧
    (SetAffinityWindows.SetAffinityUnsafe (fun (s : Unit) (_ : Nat) => ((3 : Nat), s)) () 5
        (some 0)).appliedAffinityMask = some 3 :=
  (Windows_SetAffinity_verify (fun (s : Unit) (_ : Nat) => ((3 : Nat), s)) () 5 0).2
    (by decide) (by decide) (by decide) (by decide)

/-! ## Return values of PinThreadLinux -/

set_option maxRecDepth 100000 in
/-- C16, as stated, fails: on a machine with 4 CPUs `PinThreadLinux` returns the same value
`-1` for a zero-length mask, for a failed allocation of the native set and for a rejected
`sched_setaffinity`. -/
theorem Pin_failure_codes_coincide :
    PinThreadLinux (machine 4 4) [15] (some []) 0 (some 0)
      = .returned ⟨-1, 1234, [15], []⟩ ∧
    PinThreadLinux (failingAlloc 0 (machine 4 4)) [15] (some [0b1010]) 1 (some 0)
      = .returned ⟨-1, 1234, [15], [.alloc 8 false]⟩ ∧
    PinThreadLinux (rejectingApply (machine 4 4)) [15] (some [0b1010]) 1 (some 0)
      = .returned ⟨-1, 1234, [15],
          [.alloc 8 true, .sched_setaffinity [10, 0, 0, 0, 0, 0, 0, 0] false]⟩ := by
  decide

/-- C16, amended: every call of `PinThreadLinux` that returns either succeeded, with code 0
after an accepted `sched_setaffinity`, or failed in one of the three failure kinds
(zero-length mask, failed allocation of the native set, rejected `sched_setaffinity`), and
each of the three kinds returns the same negative value `-1`. -/
theorem Pin_failures_return_minus_one (env : Env) (affinity : List Nat)
    (mask : Option (List Nat)) (maskLength : Nat) (tid : Int) (r : PinRet)
    (hrun : PinThreadLinux env affinity mask maskLength (some tid) = .returned r) :
    (r.code = 0 ∧ ∃ size cpuset, r.trace = [.alloc size true, .sched_setaffinity cpuset true]) ∨
    (r.code = -1 ∧ r.code < 0 ∧
      ((maskLength = 0 ∧ r.trace = []) ∨
        (∃ size, r.trace = [.alloc size false]) ∨
        (∃ size cpuset, r.trace = [.alloc size true, .sched_setaffinity cpuset false]))) := by
  simp only [PinThreadLinux] at hrun
  repeat' split at hrun
  all_goals first
    | exact Run.noConfusion hrun
    | (simp only [Run.returned.injEq] at hrun
       subst hrun
       simp_all)

set_option maxRecDepth 100000 in
/-- C16, amended, run on a machine with 4 CPUs whose kernel rejects every request. -/
theorem Pin_failures_return_minus_one_witness :
    ((-1 : Int) = 0 ∧ ∃ size cpuset,
        [Event.alloc 8 true, .sched_setaffinity [10, 0, 0, 0, 0, 0, 0, 0] false]
          = [.alloc size true, .sched_setaffinity cpuset true]) ∨
    ((-1 : Int) = -1 ∧ (-1 : Int) < 0 ∧
      (((1 : Nat) = 0 ∧
          [Event.alloc 8 true, .sched_setaffinity [10, 0, 0, 0, 0, 0, 0, 0] false] = []) ∨
        (∃ size, [Event.alloc 8 true, .sched_setaffinity [10, 0, 0, 0, 0, 0, 0, 0] false]
          = [.alloc size false]) ∨
        (∃ size cpuset,
          [Event.alloc 8 true, .sched_setaffinity [10, 0, 0, 0, 0, 0, 0, 0] false]
            = [.alloc size true, .sched_setaffinity cpuset false]))) :=
  Pin_failures_return_minus_one (rejectingApply (machine 4 4)) [15] (some [0b1010]) 1 0
    ⟨-1, 1234, [15], [.alloc 8 true, .sched_setaffinity [10, 0, 0, 0, 0, 0, 0, 0] false]⟩
    (by decide)

/-! ## The set applied by ResetAffinityUnsafe and UnpinThread -/

/-- C14: for every platform reporting `n` CPUs with `1 ≤ n ≤ INT32_MAX`, the native set
built by `ResetAffinityUnsafe` and by `UnpinThread` is a function of `n` alone and has CPU
`c` set if and only if `c < n`; both functions hand exactly this set to
`sched_setaffinity`; and on every platform reporting a count `≤ 0` both return their
`FailedToGetRealNumCpus` with an empty trace (no allocation, no apply). -/
theorem reset_set_has_exactly_the_real_cpus (env : Env) (affinity : List Nat) (tid : Int)
    (applied : Option (List Nat)) (len n : Nat)
    (hn : env.nprocs = (n : Int)) (h1 : 1 ≤ n) (hmax : n ≤ 2147483647)
    (halloc : env.allocOk 0 = true) :
    (∀ c, CPU_ISSET_S c (CPU_ALLOC_SIZE n) (ResetAffinityLinux.allCpus n (CPU_ALLOC_SIZE n))
        = true ↔ c < n) ∧
    (∀ c, CPU_ISSET_S c (CPU_ALLOC_SIZE n) (UnpinThreadLinux.allCpus n (CPU_ALLOC_SIZE n))
        = true ↔ c < n) ∧
    ResetAffinityLinux.ResetAffinityUnsafe env affinity (some tid) (some applied) (some len)
      = (match env.sched_setaffinity affinity
            (ResetAffinityLinux.allCpus n (CPU_ALLOC_SIZE n)) with
          | none =>
            .returned ⟨ResetAffinityLinux.FailedToSetAffinity, some 0, some none, some 0,
              affinity,
              [.alloc (CPU_ALLOC_SIZE n) true,
                .sched_setaffinity (ResetAffinityLinux.allCpus n (CPU_ALLOC_SIZE n)) false]⟩
          | some affinity' =>
            ResetAffinityLinux.readBackPhase env affinity'
              [.alloc (CPU_ALLOC_SIZE n) true,
                .sched_setaffinity (ResetAffinityLinux.allCpus n (CPU_ALLOC_SIZE n)) true]) ∧
    UnpinThreadLinux.UnpinThread env affinity
      = (match env.sched_setaffinity affinity
            (UnpinThreadLinux.allCpus n (CPU_ALLOC_SIZE n)) with
          | none =>
            .returned ⟨UnpinThreadLinux.FailedToSetAffinity, affinity,
              [.alloc (CPU_ALLOC_SIZE n) true,
                .sched_setaffinity (UnpinThreadLinux.allCpus n (CPU_ALLOC_SIZE n)) false]⟩
          | some affinity' =>
            .returned ⟨UnpinThreadLinux.Success, affinity',
              [.alloc (CPU_ALLOC_SIZE n) true,
                .sched_setaffinity (UnpinThreadLinux.allCpus n (CPU_ALLOC_SIZE n)) true]⟩) ∧
    (∀ (env' : Env), env'.nprocs ≤ 0 →
      ResetAffinityLinux.ResetAffinityUnsafe env' affinity (some tid) (some applied) (some len)
        = .returned ⟨ResetAffinityLinux.FailedToGetRealNumCpus, some 0, some none, some 0,
            affinity, []⟩ ∧
      UnpinThreadLinux.UnpinThread env' affinity
        = .returned ⟨UnpinThreadLinux.FailedToGetRealNumCpus, affinity, []⟩) := by
  have hn63 : n < 2 ^ 63 := by omega
  have hpos : ¬ ((n : Int) ≤ 0) := by omega
  have hle : ¬ ((n : Int) > INT32_MAX) := by unfold INT32_MAX; omega
  refine ⟨fun c => isset_all_cpus n c hn63, fun c => isset_all_cpus n c hn63, ?_, ?_, ?_⟩
  · simp only [ResetAffinityLinux.ResetAffinityUnsafe, hn, hpos, hle, halloc, if_false,
      Int.toNat_ofNat]
    rfl
  · simp only [UnpinThreadLinux.UnpinThread, hn, hpos, halloc, if_false, Int.toNat_ofNat]
    rfl
  · intro env' hle'
    simp [ResetAffinityLinux.ResetAffinityUnsafe, UnpinThreadLinux.UnpinThread, hle']

set_option maxRecDepth 100000 in
/-- C14, run on a machine with 4 CPUs: CPU 3 is in the set built by `ResetAffinityUnsafe`
and CPU 4 is not. -/
theorem reset_set_has_exactly_the_real_cpus_witness :
    (CPU_ISSET_S 3 (CPU_ALLOC_SIZE 4) (ResetAffinityLinux.allCpus 4 (CPU_ALLOC_SIZE 4))
        = true ↔ 3 < 4) ∧
    (CPU_ISSET_S 4 (CPU_ALLOC_SIZE 4) (ResetAffinityLinux.allCpus 4 (CPU_ALLOC_SIZE 4))
        = true ↔ 4 < 4) :=
  ⟨(reset_set_has_exactly_the_real_cpus (machine 4 4) [15] 0 none 0 4 rfl (by decide)
      (by decide) rfl).1 3,
    (reset_set_has_exactly_the_real_cpus (machine 4 4) [15] 0 none 0 4 rfl (by decide)
      (by decide) rfl).1 4⟩

/-! ## RealBitPositionTooLarge -/

/-- C13: for every request of length `L ≥ 1` with `64 * L < 2 ^ 64`, non-null pointers and
the native set allocated, `SetAffinityUnsafe` returns `RealBitPositionTooLarge = -3` if and
only if some set bit `j` of some word `k` has real bit position `j + (L - 1 - k) * 64`
greater than `INT_MAX`; and then the trace holds the allocation only (no
`sched_setaffinity`), the applied-mask pointer is `NULL` and the applied-mask length 0. -/
theorem SetAffinity_too_large_iff (env : Env) (affinity mask : List Nat) (tid : Int)
    (applied : Option (List Nat)) (len : Nat)
    (hL : 1 ≤ mask.length) (hov : 64 * mask.length < 2 ^ 64)
    (halloc : env.allocOk 0 = true) :
    SetAffinityLinux.RealBitPositionTooLarge = -3 ∧
    ((SetAffinityLinux.SetAffinityUnsafe env affinity (some mask) mask.length (some tid)
          (some applied) (some len)).code? = some SetAffinityLinux.RealBitPositionTooLarge ↔
      ∃ k j, k < mask.length ∧ j < 64 ∧ (mask.getD k 0).testBit j = true ∧
        j + (mask.length - 1 - k) * 64 > INT_MAX) ∧
    ((SetAffinityLinux.SetAffinityUnsafe env affinity (some mask) mask.length (some tid)
          (some applied) (some len)).code? = some SetAffinityLinux.RealBitPositionTooLarge →
      SetAffinityLinux.SetAffinityUnsafe env affinity (some mask) mask.length (some tid)
          (some applied) (some len)
        = .returned ⟨SetAffinityLinux.RealBitPositionTooLarge, some env.gettid, some none,
            some 0, affinity, [.alloc (CPU_ALLOC_SIZE ((mask.length * 64) % 2 ^ 64)) true]⟩) := by
  have hne : mask.length ≠ 0 := by omega
  obtain ⟨hoob, hiff⟩ := lowerWords_tooLarge_iff mask
    (CPU_ALLOC_SIZE ((mask.length * 64) % 2 ^ 64)) hov mask.length (Nat.le_refl _)
    (CPU_ZERO_S (CPU_ALLOC_SIZE ((mask.length * 64) % 2 ^ 64)))
  have hrhs : (∃ k j, k < mask.length ∧ j < 64 ∧ (mask.getD k 0).testBit j = true ∧
        j + (mask.length - 1 - k) * 64 > INT_MAX) ↔
      (∃ k j, k < mask.length ∧ j < 64 ∧ (mask.getD k 0).testBit j = true ∧
        (mask.length - (k + 1)) * 64 + j > INT_MAX) := by
    constructor
    · rintro ⟨k, j, hk, hj, hb, hg⟩
      exact ⟨k, j, hk, hj, hb, by rw [show mask.length - (k + 1) = mask.length - 1 - k by omega]; omega⟩
    · rintro ⟨k, j, hk, hj, hb, hg⟩
      exact ⟨k, j, hk, hj, hb, by rw [show mask.length - 1 - k = mask.length - (k + 1) by omega]; omega⟩
  rw [hrhs, ← hiff]
  refine ⟨rfl, ?_⟩
  simp only [SetAffinityLinux.SetAffinityUnsafe, hne, halloc, if_false]
  cases hlow : lowerWords mask mask.length (CPU_ALLOC_SIZE ((mask.length * 64) % 2 ^ 64))
      mask.length (CPU_ZERO_S (CPU_ALLOC_SIZE ((mask.length * 64) % 2 ^ 64))) with
  | outOfBounds => exact absurd hlow hoob
  | tooLarge => simp [Run.code?]
  | done cpuset =>
    simp only
    cases happly : env.sched_setaffinity affinity cpuset with
    | none =>
      simp [Run.code?, SetAffinityLinux.RealBitPositionTooLarge,
        SetAffinityLinux.FailedToSetAffinity]
    | some affinity' =>
      simp only
      have hcode := Set_readBackPhase_code_ne env affinity' env.gettid
        [.alloc (CPU_ALLOC_SIZE ((mask.length * 64) % 2 ^ 64)) true,
          .sched_setaffinity cpuset true]
      exact ⟨⟨fun h => absurd h hcode, fun h => Lowered.noConfusion h⟩,
        fun h => absurd h hcode⟩

/-- C13, run on a machine with 4 CPUs with the mask of `2 ^ 25 + 1` words whose first word
is 1: bit 0 of word 0 has real bit position `2 ^ 31`. -/
theorem SetAffinity_too_large_iff_witness :
    (SetAffinityLinux.SetAffinityUnsafe (machine 4 4) [15]
          (some (1 :: List.replicate (2 ^ 25) 0)) (1 :: List.replicate (2 ^ 25) 0).length
          (some 0) (some none) (some 0)).code?
        = some SetAffinityLinux.RealBitPositionTooLarge ↔
      ∃ k j, k < (1 :: List.replicate (2 ^ 25) 0).length ∧ j < 64 ∧
        ((1 :: List.replicate (2 ^ 25) 0).getD k 0).testBit j = true ∧
        j + ((1 :: List.replicate (2 ^ 25) 0).length - 1 - k) * 64 > INT_MAX :=
  (SetAffinity_too_large_iff (machine 4 4) [15] (1 :: List.replicate (2 ^ 25) 0) 0 none 0
    (by rw [List.length_cons, List.length_replicate]; omega)
    (by rw [List.length_cons, List.length_replicate]; omega) rfl).2.1

/-! ## Idempotence of SetAffinityUnsafe -/

/-- C17: on a platform whose kernel stores, for an accepted request, a set that depends
only on the requested native set, for every requested mask, when a call of
`SetAffinityUnsafe` returns, a second call with the same mask, made in the state left by
the first (live affinity and output slots), returns exactly the same result: the same
code, applied-mask words, applied-mask length, and the same live affinity as after the
single call. -/
theorem SetAffinity_idempotent (env : Env) (affinity : List Nat)
    (suppliedAffinityMask : Option (List Nat)) (maskLength : Nat) (tid : Int)
    (applied : Option (List Nat)) (len : Nat) (r : Ret)
    (hind : ∀ a a' cpuset, env.sched_setaffinity a cpuset = env.sched_setaffinity a' cpuset)
    (hfirst : SetAffinityLinux.SetAffinityUnsafe env affinity suppliedAffinityMask maskLength
      (some tid) (some applied) (some len) = .returned r) :
    SetAffinityLinux.SetAffinityUnsafe env r.affinity suppliedAffinityMask maskLength
      r.tid r.appliedAffinityMask r.appliedMaskLength = .returned r := by
  cases suppliedAffinityMask with
  | none =>
    simp only [SetAffinityLinux.SetAffinityUnsafe, Run.returned.injEq] at hfirst
    subst hfirst
    simp [SetAffinityLinux.SetAffinityUnsafe]
  | some mask =>
    by_cases hzero : maskLength = 0
    · simp only [SetAffinityLinux.SetAffinityUnsafe, hzero, if_true, Run.returned.injEq]
        at hfirst
      subst hfirst
      simp [SetAffinityLinux.SetAffinityUnsafe, hzero]
    · simp only [SetAffinityLinux.SetAffinityUnsafe, hzero, if_false] at hfirst
      split at hfirst
      · exact Run.noConfusion hfirst
      · rename_i halloc
        split at hfirst
        · exact Run.noConfusion hfirst
        · rename_i hlow
          simp only [Run.returned.injEq] at hfirst
          subst hfirst
          simp only [SetAffinityLinux.SetAffinityUnsafe, hzero, if_false, halloc, hlow]
          rfl
        · rename_i cpuset hlow
          split at hfirst
          · rename_i happly
            simp only [Run.returned.injEq] at hfirst
            subst hfirst
            simp only [SetAffinityLinux.SetAffinityUnsafe, hzero, if_false, halloc, hlow,
              happly]
            rfl
          · rename_i affinity' happly
            obtain ⟨haff, t, m, l, ht, hm, hl⟩ := Set_readBackPhase_shape _ _ _ _ _ hfirst
            have happly' : env.sched_setaffinity r.affinity cpuset = some affinity' := by
              rw [hind r.affinity affinity cpuset]; exact happly
            rw [ht, hm, hl]
            simp only [SetAffinityLinux.SetAffinityUnsafe, hzero, if_false, halloc, hlow,
              happly']
            exact hfirst

set_option maxRecDepth 100000 in
/-- C17, run on a machine with 4 CPUs: the second call with the mask `0b1010`, made in the
state left by the first, returns the result of the first. -/
theorem SetAffinity_idempotent_witness :
    SetAffinityLinux.SetAffinityUnsafe (machine 4 4) [10, 0, 0, 0, 0, 0, 0, 0] (some [0b1010]) 1
        (some 1234) (some (some [0x5000000000000000])) (some 1)
      = .returned ⟨0, some 1234, some (some [0x5000000000000000]), some 1,
          [10, 0, 0, 0, 0, 0, 0, 0],
          [.alloc 8 true, .sched_setaffinity [10, 0, 0, 0, 0, 0, 0, 0] true, .alloc 8 true,
            .sched_getaffinity 8 true, .alloc 8 true]⟩ :=
  SetAffinity_idempotent (machine 4 4) [15] (some [0b1010]) 1 0 none 0
    ⟨0, some 1234, some (some [0x5000000000000000]), some 1, [10, 0, 0, 0, 0, 0, 0, 0],
      [.alloc 8 true, .sched_setaffinity [10, 0, 0, 0, 0, 0, 0, 0] true, .alloc 8 true,
        .sched_getaffinity 8 true, .alloc 8 true]⟩
    (fun _ _ _ => rfl) (by decide)

/-! ## The two copies of Lower -/

/-- C20: for every mask of length `L` with `1 ≤ L ≤ 2 ^ 25`, on every platform where the
native set can be allocated, `PinThreadLinux` and `SetAffinityUnsafe` allocate a native set
of the same size `8 * L` and hand the same byte list `cpuset`, the result of the lowering
loop of `SetAffinityUnsafe`, to `sched_setaffinity`. -/
theorem Pin_and_SetAffinity_apply_the_same_set (env : Env) (affinity mask : List Nat)
    (tid : Int) (applied : Option (List Nat)) (len : Nat)
    (hL : 1 ≤ mask.length) (hmax : mask.length ≤ 2 ^ 25) (halloc : env.allocOk 0 = true) :
    ∃ cpuset, lower mask mask.length = .done cpuset ∧ cpuset.length = 8 * mask.length ∧
      SetAffinityLinux.SetAffinityUnsafe env affinity (some mask) mask.length (some tid)
          (some applied) (some len)
        = (match env.sched_setaffinity affinity cpuset with
            | none =>
              .returned ⟨SetAffinityLinux.FailedToSetAffinity, some env.gettid, some none,
                some 0, affinity,
                [.alloc (8 * mask.length) true, .sched_setaffinity cpuset false]⟩
            | some affinity' =>
              SetAffinityLinux.readBackPhase env affinity' env.gettid
                [.alloc (8 * mask.length) true, .sched_setaffinity cpuset true]) ∧
      PinThreadLinux env affinity (some mask) mask.length (some tid)
        = (match env.sched_setaffinity affinity cpuset with
            | none =>
              .returned ⟨-1, env.gettid, affinity,
                [.alloc (8 * mask.length) true, .sched_setaffinity cpuset false]⟩
            | some affinity' =>
              .returned ⟨0, env.gettid, affinity',
                [.alloc (8 * mask.length) true, .sched_setaffinity cpuset true]⟩) := by
  have hmax' : 64 * mask.length ≤ INT_MAX + 1 := by unfold INT_MAX; omega
  have hne : mask.length ≠ 0 := by omega
  have hsize : CPU_ALLOC_SIZE ((mask.length * 64) % 2 ^ 64) = 8 * mask.length :=
    CPU_ALLOC_SIZE_mask mask.length hmax'
  have hsize32 : CPU_ALLOC_SIZE ((mask.length * 64) % 2 ^ 32) = 8 * mask.length := by
    unfold CPU_ALLOC_SIZE
    omega
  obtain ⟨cpuset, hlow, hpin⟩ := lowerWords_eq_pinWords mask (8 * mask.length) hmax'
    mask.length (Nat.le_refl _) (CPU_ZERO_S (8 * mask.length))
  obtain ⟨cpuset', hlow', hlen, _⟩ := lower_done mask hmax'
  have hlower : lower mask mask.length = .done cpuset := by
    unfold lower
    simp only [hsize]
    exact hlow
  have hcc : cpuset' = cpuset := by
    rw [hlower] at hlow'
    exact (Lowered.done.inj hlow').symm
  have hlast : mask.length - 1 < 2 ^ 31 := by omega
  have hpin' : pinWords mask (mask.length - 1) (8 * mask.length) (mask.length - 1 + 1)
      (CPU_ZERO_S (8 * mask.length)) = .returned cpuset := by
    rw [show mask.length - 1 + 1 = mask.length by omega]
    exact hpin
  refine ⟨cpuset, hlower, hcc ▸ hlen, ?_, ?_⟩
  · simp only [SetAffinityLinux.SetAffinityUnsafe, hne, if_false, halloc, hsize, hlow]
    rfl
  · simp only [PinThreadLinux, hne, if_false, halloc, hsize32, hlast, if_true, hpin']
    rfl

set_option maxRecDepth 100000 in
/-- C20, run on a machine with 4 CPUs with the one-word mask `0b1010`. -/
theorem Pin_and_SetAffinity_apply_the_same_set_witness :
    ∃ cpuset, lower [0b1010] [0b1010].length = .done cpuset ∧
      cpuset.length = 8 * [0b1010].length ∧
      SetAffinityLinux.SetAffinityUnsafe (machine 4 4) [15] (some [0b1010]) [0b1010].length
          (some 0) (some none) (some 0)
        = (match (machine 4 4).sched_setaffinity [15] cpuset with
            | none =>
              .returned ⟨SetAffinityLinux.FailedToSetAffinity, some (machine 4 4).gettid,
                some none, some 0, [15],
                [.alloc (8 * [0b1010].length) true, .sched_setaffinity cpuset false]⟩
            | some affinity' =>
              SetAffinityLinux.readBackPhase (machine 4 4) affinity' (machine 4 4).gettid
                [.alloc (8 * [0b1010].length) true, .sched_setaffinity cpuset true]) ∧
      PinThreadLinux (machine 4 4) [15] (some [0b1010]) [0b1010].length (some 0)
        = (match (machine 4 4).sched_setaffinity [15] cpuset with
            | none =>
              .returned ⟨-1, (machine 4 4).gettid, [15],
                [.alloc (8 * [0b1010].length) true, .sched_setaffinity cpuset false]⟩
            | some affinity' =>
              .returned ⟨0, (machine 4 4).gettid, affinity',
                [.alloc (8 * [0b1010].length) true, .sched_setaffinity cpuset true]⟩) :=
  Pin_and_SetAffinity_apply_the_same_set (machine 4 4) [15] [0b1010] 0 none 0
    (by decide) (by decide) rfl

/-! ## What the read-back loop computes -/

/-- C18: for every word count `W` (below `2 ^ 58`, so that the byte count does not wrap)
and every native byte buffer of `8 * W` bytes, the shift-and-insert loop (the copy of
SetAffinityLinux.c and the copy of GetAffinityLinux.c) returns `W` words, and for every
`k < W` and `j < 64`, bit `63 - j` of output word `W - 1 - k` equals native CPU bit
`64 * k + j`, that is bit `j % 8` of byte `8 * k + j / 8`; every word stays below `2 ^ 64`,
so all 64 inserted bits of a word are present and none is shifted out. -/
theorem raise_reverses_the_bits_of_every_word (W : Nat) (buf : List Nat) (hW : W < 2 ^ 58)
    (hbuf : buf.length = 8 * W) :
    ∃ words, raise buf W (numOfBytes W) = .returned words ∧
      GetAffinityLinux.raise buf (W : Int) (GetAffinityLinux.numOfBytes (W : Int))
        = .returned words ∧
      words.length = W ∧
      ∀ k j, k < W → j < 64 →
        (words.getD (W - 1 - k) 0).testBit (63 - j)
            = (buf.getD (8 * k + j / 8) 0).testBit (j % 8) ∧
          words.getD (W - 1 - k) 0 < 2 ^ 64 := by
  obtain ⟨words, hrun, hlen, hbits⟩ := raise_spec buf W hW hbuf
  have hcast : GetAffinityLinux.toU64 (W : Int) = W := by
    unfold GetAffinityLinux.toU64
    omega
  refine ⟨words, hrun, ?_, hlen, fun k j hk hj => ⟨(hbits k hk).2 j hj, (hbits k hk).1⟩⟩
  rw [Get_raise_eq, hcast]
  have hnb : GetAffinityLinux.numOfBytes (W : Int) = numOfBytes W := by
    unfold GetAffinityLinux.numOfBytes numOfBytes
    rw [hcast]
  rw [hnb]
  exact hrun

set_option maxRecDepth 100000 in
/-- C18, run on the 8-byte native set with CPUs 1 and 3. -/
theorem raise_reverses_the_bits_of_every_word_witness :
    ∃ words, raise [10, 0, 0, 0, 0, 0, 0, 0] 1 (numOfBytes 1) = .returned words ∧
      GetAffinityLinux.raise [10, 0, 0, 0, 0, 0, 0, 0] ((1 : Nat) : Int)
          (GetAffinityLinux.numOfBytes ((1 : Nat) : Int)) = .returned words ∧
      words.length = 1 ∧
      ∀ k j, k < 1 → j < 64 →
        (words.getD (1 - 1 - k) 0).testBit (63 - j)
            = (([10, 0, 0, 0, 0, 0, 0, 0] : List Nat).getD (8 * k + j / 8) 0).testBit (j % 8) ∧
          words.getD (1 - 1 - k) 0 < 2 ^ 64 :=
  raise_reverses_the_bits_of_every_word 1 [10, 0, 0, 0, 0, 0, 0, 0] (by decide) (by decide)

/-! ## The three copies of the read-back loop -/

/-- C19: for every real CPU count `n` with `1 ≤ n ≤ INT32_MAX` and every native byte
buffer, the read-back loops of `GetAffinityUnsafe` and `ResetAffinityUnsafe` (signed word
count, cast to `uint64_t`) compute the same word count and the same result (the same
output words, or the same fault) as the read-back loop of `SetAffinityUnsafe`. -/
theorem three_copies_of_raise_agree (n : Int) (realcpuset : List Nat) (h1 : 1 ≤ n)
    (hmax : n ≤ INT32_MAX) :
    GetAffinityLinux.toU64 (GetAffinityLinux.numOfLongs n) = numOfLongs n.toNat ∧
    ResetAffinityLinux.toU64 (ResetAffinityLinux.numOfLongs n) = numOfLongs n.toNat ∧
    GetAffinityLinux.raise realcpuset (GetAffinityLinux.numOfLongs n)
        (GetAffinityLinux.numOfBytes (GetAffinityLinux.numOfLongs n))
      = raise realcpuset (numOfLongs n.toNat) (numOfBytes (numOfLongs n.toNat)) ∧
    ResetAffinityLinux.raise realcpuset (ResetAffinityLinux.numOfLongs n)
        (ResetAffinityLinux.numOfBytes (ResetAffinityLinux.numOfLongs n))
      = raise realcpuset (numOfLongs n.toNat) (numOfBytes (numOfLongs n.toNat)) := by
  have hg := Get_numOfLongs_eq n h1 hmax
  have hr := Reset_numOfLongs_eq n h1 hmax
  refine ⟨hg, hr, ?_, ?_⟩
  · rw [Get_raise_eq]
    unfold GetAffinityLinux.numOfBytes numOfBytes
    rw [hg]
  · rw [Reset_raise_eq]
    unfold ResetAffinityLinux.numOfBytes numOfBytes
    rw [hr]

set_option maxRecDepth 100000 in
/-- C19, run with 4 real CPUs on the 8-byte native set with CPUs 1 and 3. -/
theorem three_copies_of_raise_agree_witness :
    GetAffinityLinux.toU64 (GetAffinityLinux.numOfLongs 4) = numOfLongs (4 : Int).toNat ∧
    ResetAffinityLinux.toU64 (ResetAffinityLinux.numOfLongs 4) = numOfLongs (4 : Int).toNat ∧
    GetAffinityLinux.raise [10, 0, 0, 0, 0, 0, 0, 0] (GetAffinityLinux.numOfLongs 4)
        (GetAffinityLinux.numOfBytes (GetAffinityLinux.numOfLongs 4))
      = raise [10, 0, 0, 0, 0, 0, 0, 0] (numOfLongs (4 : Int).toNat)
          (numOfBytes (numOfLongs (4 : Int).toNat)) ∧
    ResetAffinityLinux.raise [10, 0, 0, 0, 0, 0, 0, 0] (ResetAffinityLinux.numOfLongs 4)
        (ResetAffinityLinux.numOfBytes (ResetAffinityLinux.numOfLongs 4))
      = raise [10, 0, 0, 0, 0, 0, 0, 0] (numOfLongs (4 : Int).toNat)
          (numOfBytes (numOfLongs (4 : Int).toNat)) :=
  three_copies_of_raise_agree 4 [10, 0, 0, 0, 0, 0, 0, 0] (by decide) (by decide)

/-! ## The word index of the read-back loop -/

/-- C21: for every word count `numOfLongs` and byte index `i < 8 * numOfLongs` (with
`8 * numOfLongs` a `uint64_t` value; such an `i` exists only when `numOfLongs ≥ 1`), the
index computed by the code, `numOfLongs - ((i + 8) / 8)` with truncating unsigned
division, equals the specified `numberOfWords - ceil((byteIndex + 1) / 8)`; and this index
is the one the loop of SetAffinityLinux.c and the loop of GetAffinityLinux.c read and
write at every step. -/
theorem word_index_matches_specification (W i : Nat) (h64 : 8 * W < 2 ^ 64)
    (hi : i < 8 * W) :
    ((currIndexOfComparisonMask W i : Nat) : Int) = specWordIndex W i ∧
    (∀ (b j : Nat) (js out : List Nat), raiseBits b W i (j :: js) out
      = (match out[currIndexOfComparisonMask W i]? with
          | none => .fault .writeOutOfBounds
          | some w =>
            raiseBits b W i js (out.set (currIndexOfComparisonMask W i)
              (((w <<< 1) % 2 ^ 64) ||| ((((1 <<< j) % 256) &&& b) >>> j) % 256)))) ∧
    (∀ (N : Int) (b j : Nat) (js out : List Nat),
      GetAffinityLinux.raiseBits b N i (j :: js) out
      = (match out[currIndexOfComparisonMask (GetAffinityLinux.toU64 N) i]? with
          | none => .fault .writeOutOfBounds
          | some w =>
            GetAffinityLinux.raiseBits b N i js
              (out.set (currIndexOfComparisonMask (GetAffinityLinux.toU64 N) i)
                (((w <<< 1) % 2 ^ 64) ||| ((((1 <<< j) % 256) &&& b) >>> j) % 256)))) := by
  refine ⟨?_, fun _ _ _ _ => rfl, fun _ _ _ _ _ => rfl⟩
  obtain ⟨hidx, hle⟩ := currIndex_eq W i h64 hi
  unfold specWordIndex
  rw [hidx, ceil_byte_index]
  omega

/-- C21, run with 2 words at byte index 8, the first byte of the second 64-CPU group: the
index is 0. -/
theorem word_index_matches_specification_witness :
    ((currIndexOfComparisonMask 2 8 : Nat) : Int) = specWordIndex 2 8 :=
  (word_index_matches_specification 2 8 (by decide) (by decide)).1

/-- C22: for every CPU count `n` with `0 ≤ n ≤ INT32_MAX`, with
`numOfLongs = (n + 64) / 64` words allocated and `numOfBytes = 8 * numOfLongs`, for every
byte index `i < numOfBytes` the subtraction `numOfLongs - ((i + 8) / 8)` does not wrap and
the index is below `numOfLongs`; on every native buffer the read-back loop of
SetAffinityLinux.c never writes outside the output buffer, and for `n ≥ 1` neither do the
loops of GetAffinityLinux.c and ResetAffinityLinux.c. -/
theorem raise_writes_inside_output (n i : Nat) (hn : n ≤ 2147483647)
    (hi : i < numOfBytes (numOfLongs n)) :
    numOfBytes (numOfLongs n) = 8 * numOfLongs n ∧
    (i + 8) / 8 ≤ numOfLongs n ∧
    currIndexOfComparisonMask (numOfLongs n) i = numOfLongs n - (i + 8) / 8 ∧
    currIndexOfComparisonMask (numOfLongs n) i < numOfLongs n ∧
    (∀ realcpuset : List Nat,
      raise realcpuset (numOfLongs n) (numOfBytes (numOfLongs n))
        ≠ .fault .writeOutOfBounds) ∧
    (1 ≤ n → ∀ realcpuset : List Nat,
      GetAffinityLinux.raise realcpuset (GetAffinityLinux.numOfLongs (n : Int))
          (GetAffinityLinux.numOfBytes (GetAffinityLinux.numOfLongs (n : Int)))
        ≠ .fault .writeOutOfBounds ∧
      ResetAffinityLinux.raise realcpuset (ResetAffinityLinux.numOfLongs (n : Int))
          (ResetAffinityLinux.numOfBytes (ResetAffinityLinux.numOfLongs (n : Int)))
        ≠ .fault .writeOutOfBounds) := by
  have hW : numOfLongs n < 2 ^ 26 := by unfold numOfLongs; omega
  have hnb : numOfBytes (numOfLongs n) = 8 * numOfLongs n := by
    unfold numOfBytes
    omega
  rw [hnb] at hi
  obtain ⟨hidx, hle⟩ := currIndex_eq (numOfLongs n) i (by omega) hi
  have hsafe : ∀ realcpuset : List Nat,
      raise realcpuset (numOfLongs n) (numOfBytes (numOfLongs n))
        ≠ .fault .writeOutOfBounds := by
    intro realcpuset
    unfold raise
    apply raiseBytes_no_write_fault realcpuset (numOfLongs n) (by omega)
    · intro x hx
      have := List.mem_range.mp hx
      omega
    · simp
  refine ⟨hnb, by omega, by rw [hidx]; omega, by rw [hidx]; omega, hsafe, ?_⟩
  intro h1 realcpuset
  have hmax : (n : Int) ≤ INT32_MAX := by unfold INT32_MAX; omega
  have hg := Get_numOfLongs_eq (n : Int) (by omega) hmax
  have hr := Reset_numOfLongs_eq (n : Int) (by omega) hmax
  rw [Int.toNat_ofNat] at hg hr
  constructor
  · rw [Get_raise_eq]
    unfold GetAffinityLinux.numOfBytes
    rw [hg]
    exact hsafe realcpuset
  · rw [Reset_raise_eq]
    unfold ResetAffinityLinux.numOfBytes
    rw [hr]
    exact hsafe realcpuset

/-- C22, run with 64 real CPUs at the last byte index 15: the index is 0, below the 2
words allocated. -/
theorem raise_writes_inside_output_witness :
    numOfBytes (numOfLongs 64) = 8 * numOfLongs 64 ∧
    (15 + 8) / 8 ≤ numOfLongs 64 ∧
    currIndexOfComparisonMask (numOfLongs 64) 15 = numOfLongs 64 - (15 + 8) / 8 ∧
    currIndexOfComparisonMask (numOfLongs 64) 15 < numOfLongs 64 :=
  ⟨(raise_writes_inside_output 64 15 (by decide) (by decide)).1,
    (raise_writes_inside_output 64 15 (by decide) (by decide)).2.1,
    (raise_writes_inside_output 64 15 (by decide) (by decide)).2.2.1,
    (raise_writes_inside_output 64 15 (by decide) (by decide)).2.2.2.1⟩

/-! ## The Windows verify step under prior-mask semantics -/

/-- C23: with the native primitive storing the given mask and returning the mask stored
before when it accepts a call, returning 0 when it rejects it, and accepting a mask again
once it has accepted it, for every non-zero stored mask and every non-zero supplied mask
the Windows `SetAffinityUnsafe` never returns `AppliedMaskDoesNotMatch`: when the first
call is accepted the code is `Success` and the value reported as applied mask is the
supplied mask (which is then the stored mask); when it is rejected the code is
`SetThreadAffinityMaskFailed`. -/
theorem Windows_verify_never_mismatches (accepts : Nat → Nat → Bool)
    (stored suppliedAffinityMask slot : Nat)
    (hstored : stored ≠ 0) (hsupplied : suppliedAffinityMask ≠ 0)
    (hagain : ∀ s m, accepts s m = true → accepts m m = true) :
    (SetAffinityWindows.SetAffinityUnsafe (SetAffinityWindows.priorMaskPrimitive accepts)
        stored suppliedAffinityMask (some slot)).code
      ≠ SetAffinityWindows.AppliedMaskDoesNotMatch ∧
    (accepts stored suppliedAffinityMask = true →
      (SetAffinityWindows.SetAffinityUnsafe (SetAffinityWindows.priorMaskPrimitive accepts)
          stored suppliedAffinityMask (some slot)).code = SetAffinityWindows.Success ∧
      (SetAffinityWindows.SetAffinityUnsafe (SetAffinityWindows.priorMaskPrimitive accepts)
          stored suppliedAffinityMask (some slot)).appliedAffinityMask
        = some suppliedAffinityMask ∧
      (SetAffinityWindows.SetAffinityUnsafe (SetAffinityWindows.priorMaskPrimitive accepts)
          stored suppliedAffinityMask (some slot)).state = suppliedAffinityMask) ∧
    (accepts stored suppliedAffinityMask = false →
      (SetAffinityWindows.SetAffinityUnsafe (SetAffinityWindows.priorMaskPrimitive accepts)
          stored suppliedAffinityMask (some slot)).code
        = SetAffinityWindows.SetThreadAffinityMaskFailed) := by
  have hpos : ¬ suppliedAffinityMask ≤ 0 := by omega
  cases hacc : accepts stored suppliedAffinityMask with
  | true =>
    have h2 := hagain stored suppliedAffinityMask hacc
    simp [SetAffinityWindows.SetAffinityUnsafe, SetAffinityWindows.priorMaskPrimitive, hpos,
      hacc, h2, hstored, hsupplied, SetAffinityWindows.Success,
      SetAffinityWindows.AppliedMaskDoesNotMatch]
  | false =>
    simp [SetAffinityWindows.SetAffinityUnsafe, SetAffinityWindows.priorMaskPrimitive, hpos,
      hacc, SetAffinityWindows.SetThreadAffinityMaskFailed,
      SetAffinityWindows.AppliedMaskDoesNotMatch]

/-- C23, run with the mask `0b1111` stored, a system that accepts the masks below 16, and
the supplied mask `0b1010`. -/
theorem Windows_verify_never_mismatches_witness :
    (SetAffinityWindows.SetAffinityUnsafe
        (SetAffinityWindows.priorMaskPrimitive (fun _ m => decide (m < 16)))
        0b1111 0b1010 (some 0)).code = SetAffinityWindows.Success ∧
    (SetAffinityWindows.SetAffinityUnsafe
        (SetAffinityWindows.priorMaskPrimitive (fun _ m => decide (m < 16)))
        0b1111 0b1010 (some 0)).appliedAffinityMask = some 0b1010 ∧
    (SetAffinityWindows.SetAffinityUnsafe
        (SetAffinityWindows.priorMaskPrimitive (fun _ m => decide (m < 16)))
        0b1111 0b1010 (some 0)).state = 0b1010 :=
  (Windows_verify_never_mismatches (fun _ m => decide (m < 16)) 0b1111 0b1010 0
    (by decide) (by decide) (fun _ _ h => h)).2.1 (by decide)

end StreamPunk
